import Mathlib

/-!
Verification of the ntpp-sentinel issue lifecycle and resolution engine
(`src/app/main.py`) against its natural-language specification.

The embedding models instants as natural numbers: seconds on the local civil
timeline, with second 0 being midnight at the start of a Monday.  Python
`datetime.weekday()` therefore corresponds to `(t / 86400) % 7` (0 = Monday,
5/6 = weekend).  Timezone conversions (`astimezone`) are identities on this
single civil timeline, and sub-second precision is dropped: nothing the
program does with these instants distinguishes microseconds.
-/

deriving instance DecidableEq for Except

namespace Sentinel

/-! ## Business-hours clock (main.py lines 313-449)

`BConfig` holds the parsed `BUSINESS_HOURS_START` / `BUSINESS_HOURS_END`
configuration as minutes after midnight (`_bh_start_total`, `_bh_end_total`).
The module-level guard at lines 33-35 replaces any configuration with
`end ≤ start` by the 08:00-17:00 default, and `_parse_hhmm` bounds both
fields by 23:59, so every configuration the program actually runs with
satisfies `valid`. -/

structure BConfig where
  startTotal : Nat
  endTotal : Nat
deriving DecidableEq

def BConfig.valid (c : BConfig) : Prop :=
  c.startTotal < c.endTotal ∧ c.endTotal ≤ 1439

/-- The default configuration: 08:00-17:00 (480 and 1020 minutes). -/
def defaultBC : BConfig := ⟨480, 1020⟩

def secPerDay : Nat := 86400

def dayIndex (t : Nat) : Nat := t / secPerDay

def dayStart (t : Nat) : Nat := dayIndex t * secPerDay

/-- Python `ts.weekday()`: 0 = Monday, ..., 6 = Sunday (epoch is a Monday). -/
def weekday (t : Nat) : Nat := dayIndex t % 7

/-- Python `(ts.hour * 60) + ts.minute` (`cur_mins` in the source): the
time-of-day in whole minutes, truncating seconds. -/
def minsOfDay (t : Nat) : Nat := t % secPerDay / 60

/-- Embeds `_is_business_time` (lines 396-402): Mon-Fri and
`start <= ts <= end`, where `start`/`end` are the configured boundaries with
seconds zeroed.  Note the interval is closed at BOTH ends. -/
def isBusinessTime (c : BConfig) (t : Nat) : Bool :=
  decide (weekday t < 5) &&
  decide (dayStart t + c.startTotal * 60 ≤ t) &&
  decide (t ≤ dayStart t + c.endTotal * 60)

/-- Weekend branch of `_roll_to_next_business_open`:
`cur + timedelta(days=7-weekday)` then `replace(hour=start, second=0)`. -/
def mondayOpen (c : BConfig) (t : Nat) : Nat :=
  (dayIndex t + (7 - weekday t)) * secPerDay + c.startTotal * 60

/-- Same-day `replace(hour=start_h, minute=start_m, second=0, microsecond=0)`. -/
def todayOpen (c : BConfig) (t : Nat) : Nat :=
  dayStart t + c.startTotal * 60

/-- `(cur + timedelta(days=1)).replace(hour=start_h, ..., second=0)`. -/
def nextDayOpen (c : BConfig) (t : Nat) : Nat :=
  (dayIndex t + 1) * secPerDay + c.startTotal * 60

/-- Embeds the body of the `while True` loop of `_roll_to_next_business_open`
(lines 404-421).  The loop is embedded with explicit fuel; under a `valid`
configuration it returns within 3 iterations (weekday-evening -> weekend
-> Monday open is the longest path), which the correctness theorems below
confirm by establishing the result for every input. -/
def rollAux (c : BConfig) : Nat → Nat → Nat
  | 0, t => t
  | n + 1, t =>
    if 5 ≤ weekday t then rollAux c n (mondayOpen c t)
    else if minsOfDay t < c.startTotal then todayOpen c t
    else if c.endTotal ≤ minsOfDay t then rollAux c n (nextDayOpen c t)
    else t

/-- Embeds `_roll_to_next_business_open` (lines 404-421). -/
def rollToNextBusinessOpen (c : BConfig) (t : Nat) : Nat :=
  rollAux c 3 t

/-- The set of instants on which `_roll_to_next_business_open` is the
identity: a weekday, with the minute-of-day in the HALF-OPEN window
`[start, end)` (the loop rolls forward as soon as `cur_mins >= end`,
while `_is_business_time` accepts the closed window up to `end`). -/
def isRollOpen (c : BConfig) (t : Nat) : Prop :=
  weekday t < 5 ∧ c.startTotal ≤ minsOfDay t ∧ minsOfDay t < c.endTotal

/-- Inner `while cur.weekday() >= 5` loop of `add_business_hours`
(lines 444-447): after stepping to the next day the loop skips at most the
two weekend days. -/
def nextOpenDay (c : BConfig) (t : Nat) : Nat :=
  let n1 := nextDayOpen c t
  if 5 ≤ weekday n1 then
    let n2 := nextDayOpen c n1
    if 5 ≤ weekday n2 then nextDayOpen c n2 else n2
  else n1

/-- Embeds the `while remaining > 0` loop of `add_business_hours`
(lines 423-449), with `remaining` in whole seconds.  Fuel bounds the number
of day-windows consumed; each iteration after the first consumes a full
business window of at least 60 seconds, so `dur / 60 + 2` iterations always
suffice under a `valid` configuration. -/
def addBizAux (c : BConfig) : Nat → Nat → Nat → Nat
  | 0, cur, _ => cur
  | n + 1, cur, remaining =>
    if remaining = 0 then cur
    else
      let available := dayStart cur + c.endTotal * 60 - cur
      if remaining ≤ available then cur + remaining
      else addBizAux c n (nextOpenDay c cur) (remaining - available)

/-- Embeds `add_business_hours(start, hours)` (lines 423-449), with the
duration `hours * 3600` given in whole seconds. -/
def addBusinessSeconds (c : BConfig) (start durSec : Nat) : Nat :=
  addBizAux c (durSec / 60 + 2) (rollToNextBusinessOpen c start) durSec

/-- The `while cur.weekday() >= 5: cur += 1 day` loop of `_next_business_day`
(lines 313-318), acting on the day index (the time of day is untouched and
only the day matters for the caller). -/
def skipWeekendDays (d : Nat) : Nat :=
  if d % 7 = 5 then d + 2
  else if d % 7 = 6 then d + 1
  else d

/-- Embeds `_business_day_end_for` (lines 320-334): the configured end-of-day
instant of the business day containing `t`, rolling to the next business day
when `t` is already past today's end. -/
def businessDayEndFor (c : BConfig) (t : Nat) : Nat :=
  let endToday := dayStart t + c.endTotal * 60
  let baseIdx := if endToday < t then dayIndex t + 1 else dayIndex t
  skipWeekendDays baseIdx * secPerDay + c.endTotal * 60

/-! ## Ack close-out text matching (main.py lines 254-311)

Text is modelled as `List Char` (Unicode codepoints, like Python `str`).
Python's `\w` / `\s` classes are embedded by their ASCII behaviour
(`Char.isAlphanum`, the explicit whitespace characters); every string the
claims exercise is ASCII-or-emoji, where the two readings agree. -/

def isSpaceChar (ch : Char) : Bool :=
  ch == ' ' || ch == '\t' || ch == '\n' || ch == '\x0d'

def isWordChar (ch : Char) : Bool :=
  ch.isAlphanum || ch == '_'

/-- Python `str.strip()`. -/
def trimChars (l : List Char) : List Char :=
  ((l.dropWhile isSpaceChar).reverse.dropWhile isSpaceChar).reverse

/-- One pass of `re.sub(r"[\r\n\t]+", " ", t)` followed by
`re.sub(r"\s+", " ", t)`: every run of whitespace becomes a single space.
The flag records whether the previous character was whitespace. -/
def collapseWsAux : Bool → List Char → List Char
  | _, [] => []
  | prevWs, ch :: rest =>
    if isSpaceChar ch then
      if prevWs then collapseWsAux true rest
      else ' ' :: collapseWsAux true rest
    else ch :: collapseWsAux false rest

def collapseWs (l : List Char) : List Char := collapseWsAux false l

/-- Embeds `_normalize_text_for_match` (lines 280-286): strip, lowercase,
collapse whitespace, strip, drop `[^\w\s]`, strip. -/
def normalizeTextForMatch (l : List Char) : List Char :=
  let t1 := (trimChars l).map Char.toLower
  let t2 := trimChars (collapseWs t1)
  trimChars (t2.filter (fun ch => isWordChar ch || isSpaceChar ch))

def listStartsWith : List Char → List Char → Bool
  | _, [] => true
  | [], _ :: _ => false
  | a :: as, b :: bs => a == b && listStartsWith as bs

def listEndsWith (l pat : List Char) : Bool :=
  listStartsWith l.reverse pat.reverse

def listContainsSeq : List Char → List Char → Bool
  | hay, pat =>
    if listStartsWith hay pat then true
    else
      match hay with
      | [] => false
      | _ :: rest => listContainsSeq rest pat

/-- The `_ACK_PHRASES` set (lines 259-269). -/
def ackPhrases : List (List Char) :=
  ["thanks".data, "thank you".data, "thx".data, "ty".data,
   "ok".data, "okay".data, "k".data, "kk".data,
   "cool".data, "cool thanks".data, "sounds good".data, "sg".data,
   "got it".data, "perfect".data,
   "great".data, "awesome".data, "cool beans".data, "nice".data,
   "all good".data, "all good now".data, "we\x27re good".data,
   "we are good".data,
   "no worries".data, "no problem".data,
   "done".data, "resolved".data, "handled".data, "taken care of".data,
   "took care of it".data,
   "fixed".data, "fixed it".data, "i fixed it".data, "we fixed it".data,
   "got it fixed".data,
   "cancel".data, "cancelled".data, "nevermind".data, "never mind".data]

/-- The `_ACK_REACTION_PREFIXES` tuple (lines 271-278). -/
def ackReactionHeads : List (List Char) :=
  ["liked ".data, "loved ".data, "disliked ".data, "laughed at ".data,
   "emphasized ".data, "questioned ".data]

/-- The emoji alternatives of `_ACK_EMOJI_RE` (line 257). -/
def ackEmojiChars : List Char :=
  ['👍', '👌', '✅', '🙏', '🙂', '😀', '😄', '😊', '🙌', '🤝', '🎉', '🥰',
   '😅', '😂', '😉']

/-- Membership of a character in the regex class `[\s\W_]` (whitespace,
non-word, or underscore). -/
def isFillerChar (ch : Char) : Bool :=
  isSpaceChar ch || !isWordChar ch || ch == '_'

/-- Embeds the `_ACK_EMOJI_RE.match(raw)` test: the regex
`^[\s\W_]*(E)+[\s\W_]*$` (with every emoji itself in `\W`) accepts exactly
the strings made of filler characters that contain at least one of the
listed emoji. -/
def ackEmojiMatch (l : List Char) : Bool :=
  l.all isFillerChar && l.any (fun ch => ackEmojiChars.contains ch)

/-- Embeds `_is_ack_closeout(text)` (lines 288-311).  `none` models Python
`None`; an empty string behaves like `None` (`if not text`). -/
def isAckCloseout (maxLen : Nat) (text : Option String) : Bool :=
  match text with
  | none => false
  | some s =>
    let raw := trimChars s.data
    if raw.isEmpty then false
    else if maxLen < raw.length then false
    else if ackEmojiMatch raw then true
    else
      let t := normalizeTextForMatch raw
      if t.isEmpty then false
      else if ackPhrases.contains t then true
      else if ackReactionHeads.any (fun p => listStartsWith t p) then true
      else if listStartsWith t "fixed it".data || listEndsWith t "fixed it".data then true
      else if listContainsSeq t "got it fixed".data || listContainsSeq t "took care of".data
              || listContainsSeq t "taken care of".data then true
      else false

/-! ## CRM messages and staff-reply detection (main.py lines 1612-1660)

A fetched message is modelled by the fields the engine reads: `direction`,
`dateAdded`, the text body and `userId`.  `dateAdded` holds the instant
already parsed from the ISO string (`_msg_ts`); `none` models a missing or
unparseable value.  `none` on a string field models an absent key, and the
events module normalises empty-string extraction results to `none` just as
the `isinstance(v, str) and v` guards treat them as missing. -/

structure Msg where
  direction : Option String
  dateAdded : Option Nat
  body : Option String
  userId : Option String
deriving DecidableEq

/-- Embeds `_msg_direction` (lines 1621-1625): the lowercased direction, or
`""` when missing/empty. -/
def msgDirection (m : Msg) : String :=
  match m.direction with
  | some v => if v = "" then "" else ⟨v.data.map Char.toLower⟩
  | none => ""

/-- Embeds `_msg_text` (lines 1627-1634): the stripped body, or `""`. -/
def msgText (m : Msg) : String :=
  match m.body with
  | some v => if (trimChars v.data).isEmpty then "" else ⟨trimChars v.data⟩
  | none => ""

/-- Embeds `_msg_is_staff_outbound` (lines 1642-1660) with the
`INTERNAL_USER_IDS` allow-list (`_internal_user_ids`, lines 1636-1640)
passed explicitly.  An empty list models an empty or unset environment
variable.  Python truthiness of `uid` makes an empty string behave like a
missing one. -/
def msgIsStaffOutbound (allow : List String) (m : Msg) : Bool :=
  if msgDirection m ≠ "outbound" then false
  else
    match m.userId with
    | none => false
    | some uid =>
      if uid = "" then false
      else if allow.isEmpty then false
      else allow.contains uid

/-! ## Issue store (main.py lines 155-253, 711-727)

The `issues` table, the `spam_phones` set and the `conversation_state`
table.  `nextId` models the autoincrement primary key; `StoreWF` captures
the primary-key facts SQLite guarantees (distinct ids, all below the next
autoincrement value). -/

inductive IssueType | SMS | CALL
deriving DecidableEq

inductive Status | PENDING | OPEN | RESOLVED | SPAM
deriving DecidableEq

structure Issue where
  id : Nat
  issue_type : IssueType
  contact_id : Option String
  phone : Option String
  contact_name : Option String
  created_ts : Nat
  due_ts : Nat
  status : Status
  resolved_ts : Option Nat
  first_inbound_ts : Option Nat
  last_inbound_ts : Option Nat
  inbound_count : Nat
  outbound_count : Nat
  conversation_id : Option String
  breach_notified_ts : Option Nat
deriving DecidableEq

/-- One row of `conversation_state` (lines 125-133). -/
structure ConvState where
  conversation_id : String
  last_internal_outbound_ts : Nat
  last_internal_outbound_contact_id : Option String
deriving DecidableEq

structure Store where
  issues : List Issue
  spam_phones : List String
  conv_state : List ConvState
  nextId : Nat
deriving DecidableEq

/-- Primary-key well-formedness of the `issues` table. -/
def StoreWF (S : Store) : Prop :=
  S.issues.Pairwise (fun a b => a.id ≠ b.id) ∧ ∀ i ∈ S.issues, i.id < S.nextId

/-- `status IN ('PENDING','OPEN')`. -/
def activeB (i : Issue) : Bool :=
  i.status == Status.PENDING || i.status == Status.OPEN

/-- `ORDER BY id DESC LIMIT 1` over the rows matched by `p`: the matching
row with the greatest id. -/
def pickMaxId : List Issue → Option Issue
  | [] => none
  | i :: rest =>
    match pickMaxId rest with
    | none => some i
    | some j => if j.id ≤ i.id then some i else some j

def latestActive (p : Issue → Bool) (l : List Issue) : Option Issue :=
  pickMaxId (l.filter p)

/-- Embeds `_is_spam` (lines 714-718). -/
def isSpamPhone (S : Store) (phone : Option String) : Bool :=
  match phone with
  | none => false
  | some p => S.spam_phones.contains p

/-- Embeds `set_last_internal_outbound` (lines 226-241): upsert on
`conversation_state`. -/
def setLastInternalOutbound (S : Store) (conv : String) (ts : Nat)
    (cid : Option String) : Store :=
  if S.conv_state.any (fun r => r.conversation_id == conv) then
    { S with conv_state := S.conv_state.map (fun r =>
        if r.conversation_id == conv then ⟨conv, ts, cid⟩ else r) }
  else
    { S with conv_state := S.conv_state ++ [⟨conv, ts, cid⟩] }

/-- Embeds `get_last_internal_outbound` (lines 244-253). -/
def getLastInternalOutbound (S : Store) (conv : String) : Option Nat :=
  (S.conv_state.find? (fun r => r.conversation_id == conv)).map
    (fun r => r.last_internal_outbound_ts)

/-! ## Ingestion and deduplication (main.py lines 1359-1606)

`SmsEvent` carries the values `inbound_sms` has extracted by line 1410:
text, contact id, normalised phone, the conversation id after the
best-effort `ghl_find_conversation_id_for_contact` lookup (`none` when both
the payload and the lookup yielded nothing), contact name, the lowercased
direction string and the `_is_internal_sender` flag.  Empty-string
extraction results are normalised to `none`, matching the Python falsiness
guards on these values. -/

structure SmsEvent where
  text : String
  contact_id : Option String
  from_phone : Option String
  conversation_id : Option String
  contact_name : Option String
  direction : String
  is_internal : Bool
deriving DecidableEq

/-- The ack close-out configuration: `ACK_CLOSE_ENABLED`,
`ACK_CLOSE_WINDOW_MODE == "eod"`, and `ACK_CLOSE_WINDOW_HOURS * 3600` in
seconds for the `hours` mode. -/
structure AckCfg where
  enabled : Bool
  eodMode : Bool
  windowSec : Nat
deriving DecidableEq

structure IngestCfg where
  bc : BConfig
  ack : AckCfg
  ackMaxLen : Nat
  smsSlaSec : Nat
  callSlaSec : Nat
deriving DecidableEq

/-- `contact_name or None`: an extracted empty string is stored as NULL. -/
def nameOrNone (n : Option String) : Option String :=
  match n with
  | some "" => none
  | x => x

/-- The UPDATE branch of `inbound_sms` (lines 1513-1523): advance
`last_inbound_ts`, increment `inbound_count`, backfill (COALESCE) identity
fields, leave `status` and `due_ts` untouched. -/
def applySmsUpdate (now : Nat) (e : SmsEvent) (i : Issue) : Issue :=
  { i with
    last_inbound_ts := some now,
    inbound_count := i.inbound_count + 1,
    contact_id := match i.contact_id with | none => e.contact_id | v => v,
    phone := match i.phone with | none => e.from_phone | v => v,
    conversation_id :=
      match i.conversation_id with | none => e.conversation_id | v => v,
    contact_name :=
      match i.contact_name with
      | none => nameOrNone e.contact_name
      | some "" => nameOrNone e.contact_name
      | v => v }

/-- The INSERT branch of `inbound_sms` (lines 1480-1489). -/
def newSmsIssue (S : Store) (now due : Nat) (e : SmsEvent) : Issue :=
  { id := S.nextId, issue_type := IssueType.SMS,
    contact_id := e.contact_id, phone := e.from_phone,
    contact_name := nameOrNone e.contact_name,
    created_ts := now, due_ts := due, status := Status.PENDING,
    resolved_ts := none,
    first_inbound_ts := some now, last_inbound_ts := some now,
    inbound_count := 1, outbound_count := 0,
    conversation_id := e.conversation_id, breach_notified_ts := none }

inductive SmsOutcome
  | ignoredOutbound
  | internalHandled
  | ignoredAck
  | created (id : Nat)
  | updated (id : Nat)
deriving DecidableEq

/-- The dedup lookups of `inbound_sms` (lines 1458-1471): an active SMS
issue keyed by `conversation_id` when known, else by phone. -/
def smsDedupRow (e : SmsEvent) (S : Store) : Option Issue :=
  let byConv :=
    match e.conversation_id with
    | some conv =>
      latestActive (fun i => activeB i && i.issue_type == IssueType.SMS
        && i.conversation_id == some conv) S.issues
    | none => none
  match byConv with
  | some r => some r
  | none =>
    match e.from_phone with
    | some p =>
      latestActive (fun i => activeB i && i.issue_type == IssueType.SMS
        && i.phone == some p) S.issues
    | none => none

/-- The find-or-create tail of `inbound_sms` (lines 1458-1535): update the
found row in place, or insert a fresh PENDING issue.  (Python computes
`due_ts` once at entry, line 1398; it is pure, and only the INSERT branch
reads it.) -/
def inboundSmsDedup (cfg : IngestCfg) (now : Nat) (e : SmsEvent)
    (S : Store) : Store × SmsOutcome :=
  match smsDedupRow e S with
  | none =>
    let ni := newSmsIssue S now (addBusinessSeconds cfg.bc now cfg.smsSlaSec) e
    ({ S with issues := S.issues ++ [ni], nextId := S.nextId + 1 },
     SmsOutcome.created ni.id)
  | some r =>
    ({ S with issues := S.issues.map (fun i =>
        if i.id = r.id then applySmsUpdate now e i else i) },
     SmsOutcome.updated r.id)

/-- The ack close-out suppression check of `inbound_sms` (lines 1434-1456):
a recent staff outbound recorded for the conversation, the event inside the
configured grace window of it, and the text matching the closing grammar. -/
def ackSuppressed (cfg : IngestCfg) (now : Nat) (e : SmsEvent)
    (S : Store) : Bool :=
  match e.conversation_id with
  | some conv =>
    if cfg.ack.enabled then
      match getLastInternalOutbound S conv with
      | some lastTs =>
        let withinWindow : Bool :=
          if cfg.ack.eodMode then
            decide (lastTs ≤ now) &&
            decide (now ≤ businessDayEndFor cfg.bc lastTs)
          else
            decide (lastTs ≤ now) &&
            decide (now - lastTs ≤ cfg.ack.windowSec)
        withinWindow && isAckCloseout cfg.ackMaxLen (some e.text)
      | none => false
    else false
  | none => false

/-- Embeds the `inbound_sms` webhook handler (lines 1359-1535) from the
point where the payload has been extracted.  The internal-sender branch
routes to the manager command dispatcher, which the specification places
outside the core (its only issue mutations go through `resolveById` /
`resolveByPhone` below); the handler itself touches no issue row on that
branch. -/
def inboundSms (cfg : IngestCfg) (now : Nat) (e : SmsEvent) (S : Store) :
    Store × SmsOutcome :=
  let S :=
    match e.conversation_id with
    | some conv =>
      if e.is_internal then setLastInternalOutbound S conv now e.contact_id
      else S
    | none => S
  if e.direction = "outbound" ∨ e.direction = "outgoing" then
    (S, SmsOutcome.ignoredOutbound)
  else if e.is_internal then (S, SmsOutcome.internalHandled)
  else if ackSuppressed cfg now e S then (S, SmsOutcome.ignoredAck)
  else inboundSmsDedup cfg now e S

inductive CallOutcome
  | ignoredRoute
  | ignoredSpam
  | created (id : Nat)
deriving DecidableEq

/-- Embeds the `unanswered_call` webhook handler (lines 1537-1606) from the
point where the payload has been extracted: a route guard, a spam guard,
and then an unconditional INSERT of a fresh PENDING CALL issue — the
handler performs no lookup for an existing active issue. -/
def unansweredCall (cfg : IngestCfg) (now : Nat) (routes : List String)
    (contact_id from_phone conversation_id contact_name : Option String)
    (S : Store) : Store × CallOutcome :=
  if ¬ routes.contains "tech_sentinel" then (S, CallOutcome.ignoredRoute)
  else if isSpamPhone S from_phone then (S, CallOutcome.ignoredSpam)
  else
    let dueTs := addBusinessSeconds cfg.bc now cfg.callSlaSec
    let ni : Issue :=
      { id := S.nextId, issue_type := IssueType.CALL,
        contact_id := contact_id, phone := from_phone,
        contact_name := nameOrNone contact_name,
        created_ts := now, due_ts := dueTs, status := Status.PENDING,
        resolved_ts := none,
        first_inbound_ts := some now, last_inbound_ts := some now,
        inbound_count := 1, outbound_count := 0,
        conversation_id := conversation_id, breach_notified_ts := none }
    ({ S with issues := S.issues ++ [ni], nextId := S.nextId + 1 },
     CallOutcome.created ni.id)

/-! ## The at-most-one-active-issue invariant (spec section 3)

Two issue rows clash when they are both active (PENDING or OPEN), of the
same kind, and either share a known `conversation_id` or both lack one and
share a known `phone`. -/

def Issue.activeP (i : Issue) : Prop :=
  i.status = Status.PENDING ∨ i.status = Status.OPEN

def clash (a b : Issue) : Prop :=
  a.issue_type = b.issue_type ∧ a.activeP ∧ b.activeP ∧
  ((a.conversation_id.isSome ∧ a.conversation_id = b.conversation_id) ∨
   (a.conversation_id = none ∧ b.conversation_id = none ∧
    a.phone.isSome ∧ a.phone = b.phone))

/-- At most one active issue per dedup key, over the whole store. -/
def invariant (S : Store) : Prop :=
  S.issues.Pairwise (fun a b => ¬ clash a b)

instance (i : Issue) : Decidable i.activeP := by
  unfold Issue.activeP
  infer_instance

instance (a b : Issue) : Decidable (clash a b) := by
  unfold clash
  infer_instance

instance (S : Store) : Decidable (invariant S) := by
  unfold invariant
  infer_instance

instance (S : Store) : Decidable (StoreWF S) := by
  unfold StoreWF
  infer_instance

/-! ## Fast poll message scan (main.py lines 1693-1797)

The staff-message branch of the scan loop is identical in `poll_resolver`
(lines 1740-1760) and in the SMS loop of `verify_pending` (lines
2138-2157); `staffScanStep` embeds it once.  `fi` is the parsed
`first_inbound_ts` (`none` when missing or unparseable). -/

structure SmsScan where
  outboundAfter : Bool
  outCount : Nat
  latestStaffTs : Option Nat
  latestStaffUid : Option String
deriving DecidableEq

def initScan : SmsScan := ⟨false, 0, none, none⟩

def staffScanStep (fi : Option Nat) (s : SmsScan) (m : Msg) : SmsScan :=
  let s := { s with outCount := s.outCount + 1 }
  let s :=
    match m.dateAdded with
    | some ts =>
      match s.latestStaffTs with
      | none =>
        { s with latestStaffTs := some ts,
                 latestStaffUid := some (m.userId.getD "") }
      | some l =>
        if l < ts then
          { s with latestStaffTs := some ts,
                   latestStaffUid := some (m.userId.getD "") }
        else s
    | none => s
  match fi, m.dateAdded with
  | some f, some ts => if f < ts then { s with outboundAfter := true } else s
  | _, _ => s

/-- The scan loop of `poll_resolver` (lines 1740-1760): only staff
messages are inspected; every local is initialised. -/
def pollScan (allow : List String) (fi : Option Nat) (msgs : List Msg) :
    SmsScan :=
  msgs.foldl
    (fun s m => if msgIsStaffOutbound allow m then staffScanStep fi s m else s)
    initScan

/-- `poll_resolver` resolves an issue exactly when the scan set
`outbound_after` (lines 1779-1787). -/
def pollResolves (allow : List String) (fi : Option Nat)
    (msgs : List Msg) : Bool :=
  (pollScan allow fi msgs).outboundAfter

/-! ## AI follow-up gate (main.py lines 1936-2036, 2187-2205)

`AiUpstream` enumerates the outcomes of the classifier call that
`ai_gate_classify` distinguishes; `ok` carries the `needs_follow_up` and
`confidence` fields parsed from the model's JSON (absent keys are `none`).
Confidences are rationals standing for the Python floats; every comparison
the program makes on them is order-theoretic.  The per-conversation cache
(lines 1957-1967) only replays a previously returned successful result and
is elided; the `evidence` list never influences control flow and is
elided as well. -/

inductive AiUpstream
  | disabled
  | missingKey
  | noWindow
  | emptyTranscript
  | httpError (status : Nat)
  | emptyResponse
  | exn
  | ok (needs : Option String) (confidence : Option ℚ)
deriving DecidableEq

structure AiGateResult where
  needs : String
  confidence : ℚ
deriving DecidableEq

def upperStr (s : String) : String := ⟨s.data.map Char.toUpper⟩

/-- Embeds `ai_gate_classify` (lines 1936-2036): every non-`ok` outcome is
normalised to `{"YES", 0.0}`; an `ok` outcome has its verdict defaulted and
upper-cased (`str(... or "YES").upper()`, unknown verdicts become `YES`)
and its confidence defaulted and clamped into `[0, 1]`. -/
def aiGateClassify (u : AiUpstream) : AiGateResult :=
  match u with
  | AiUpstream.ok needs confidence =>
    let nf0 :=
      match needs with
      | none => "YES"
      | some s => if s = "" then "YES" else upperStr s
    let nf := if nf0 = "YES" ∨ nf0 = "NO" then nf0 else "YES"
    let conf := max 0 (min 1 (confidence.getD 0))
    ⟨nf, conf⟩
  | _ => ⟨"YES", 0⟩

/-- The suppression decision of `verify_pending` (lines 2198-2201): resolve
only on a `NO` verdict with confidence at or above
`AI_GATE_SUPPRESS_NO_CONFIDENCE`. -/
def aiSuppress (threshold : ℚ) (g : AiGateResult) : Bool :=
  g.needs == "NO" && decide (threshold ≤ g.confidence)

/-! ## Boundary verification (main.py lines 2039-2396)

The SMS loop of `verify_pending` reads the locals
`latest_customer_inbound_ts` / `latest_customer_inbound_text` (lines 2163,
2172-2174, 2178) but never initialises them; they are only assigned at
lines 2165-2166.  The pair is modelled by `CustCarry`: `none` means the
variables are still unbound, and reading them in that state is Python's
`UnboundLocalError`, embedded as `Except.error ()`, which — being uncaught
— aborts the whole request.  Because the locals survive from one iteration
of the issue loop to the next, the carry is threaded through the batch. -/

abbrev CustCarry := Option (Nat × String)

/-- One iteration of the message loop in the SMS branch of
`verify_pending` (lines 2138-2166). -/
def scanMsg (allow : List String) (fi : Option Nat)
    (st : SmsScan × CustCarry) (m : Msg) : Except Unit (SmsScan × CustCarry) :=
  let (s, cust) := st
  if msgIsStaffOutbound allow m then Except.ok (staffScanStep fi s m, cust)
  else if msgDirection m = "inbound" then
    match m.dateAdded with
    | none => Except.ok (s, cust)
    | some ts =>
      match cust with
      | none => Except.error ()
      | some (prev, _) =>
        if prev < ts then Except.ok (s, some (ts, msgText m))
        else Except.ok (s, cust)
  else Except.ok (s, cust)

/-- The ack close-out tier of `verify_pending` (lines 2168-2186),
evaluated left to right exactly as the Python conjunction is. -/
def ackAfterStaff (bc : BConfig) (ak : AckCfg) (maxLen : Nat) (s : SmsScan)
    (cust : CustCarry) : Except Unit Bool :=
  if ak.enabled then
    match s.latestStaffTs with
    | none => Except.ok false
    | some staffTs =>
      match cust with
      | none => Except.error ()
      | some (custTs, custText) =>
        if custTs ≤ staffTs then Except.ok false
        else if ¬ isAckCloseout maxLen (some custText) then Except.ok false
        else if ak.eodMode then
          Except.ok (decide (staffTs ≤ custTs) &&
            decide (custTs ≤ businessDayEndFor bc staffTs))
        else Except.ok (decide (custTs - staffTs ≤ ak.windowSec))
  else Except.ok false

structure VerifyCfg where
  bc : BConfig
  ack : AckCfg
  ackMaxLen : Nat
  allow : List String
  aiThreshold : ℚ
  aiMaxPerRun : Nat
deriving DecidableEq

/-- The per-issue decision of the SMS loop of `verify_pending`
(scan, ack tier, AI tier, lines 2138-2230) for an issue whose AI budget
check passed; `ai` is the classifier result that would be consulted. -/
def verifySmsDecide (vc : VerifyCfg) (carry : CustCarry) (fi : Option Nat)
    (msgs : List Msg) (ai : AiGateResult) :
    Except Unit (Bool × SmsScan × CustCarry) := do
  let (s, cust) ← msgs.foldlM (scanMsg vc.allow fi) (initScan, carry)
  let ack ← ackAfterStaff vc.bc vc.ack vc.ackMaxLen s cust
  let aiS := if !(s.outboundAfter || ack) then aiSuppress vc.aiThreshold ai
             else false
  Except.ok (s.outboundAfter || ack || aiS, s, cust)

/-- One overdue PENDING SMS issue as `verify_pending` sees it:
`convLookup` is the best-effort conversation search used when the row has
no `conversation_id` (`none` also models a caught lookup failure); `fetch`
is the message-history fetch, `none` modelling the caught `HTTPException`
(lines 2122-2126); `ai` is the classifier result if the AI tier is
consulted (`ai_gate_classify` is total — every failure is a `YES` result). -/
structure VerifyItem where
  issue : Issue
  convLookup : Option String
  fetch : Option (List Msg)
  ai : AiGateResult
deriving DecidableEq

structure VerifyCounts where
  checked : Nat
  promoted : Nat
  autoResolved : Nat
  errors : Nat
  aiChecked : Nat
  aiSkippedBudget : Nat
deriving DecidableEq

def initVerifyCounts : VerifyCounts := ⟨0, 0, 0, 0, 0, 0⟩

/-- The conversation id used for an issue in `verify_pending`: the stored
one, else the best-effort lookup (lines 2096-2101). -/
def verifyConvOf (item : VerifyItem) : Option String :=
  match item.issue.conversation_id with
  | some c => some c
  | none => item.convLookup

/-- The AI-budget check and classifier consultation (lines 2188-2205):
returns the suppression flag and the updated counters. -/
def verifyAiStep (vc : VerifyCfg) (cnt : VerifyCounts) (ai : AiGateResult)
    (tier12 : Bool) : Bool × VerifyCounts :=
  if !tier12 then
    if vc.aiMaxPerRun ≤ cnt.aiChecked then
      (false, { cnt with aiSkippedBudget := cnt.aiSkippedBudget + 1 })
    else
      (aiSuppress vc.aiThreshold ai,
       { cnt with aiChecked := cnt.aiChecked + 1 })
  else (false, cnt)

/-- The final status write for one issue (lines 2230-2274): RESOLVED when
any tier fired, OPEN otherwise, both guarded by `WHERE status='PENDING'`. -/
def verifyFinish (vc : VerifyCfg) (cnt : VerifyCounts)
    (outs : List (Nat × Status)) (iid : Nat) (ai : AiGateResult)
    (s : SmsScan) (cust : CustCarry) (ack : Bool) :
    VerifyCounts × CustCarry × List (Nat × Status) :=
  let step := verifyAiStep vc cnt ai (s.outboundAfter || ack)
  if s.outboundAfter || ack || step.1 then
    ({ step.2 with autoResolved := step.2.autoResolved + 1 }, cust,
     outs ++ [(iid, Status.RESOLVED)])
  else
    ({ step.2 with promoted := step.2.promoted + 1 }, cust,
     outs ++ [(iid, Status.OPEN)])

/-- One iteration of the issue loop in the SMS half of `verify_pending`
(lines 2091-2274).  The third component accumulates the status written for
each processed issue (`RESOLVED` or `OPEN`, both updates guarded by
`WHERE status='PENDING'`).  The wall-clock half of the AI budget check
(line 2192) is not modelled; the max-issues half is. -/
def verifySmsStep (vc : VerifyCfg)
    (st : VerifyCounts × CustCarry × List (Nat × Status))
    (item : VerifyItem) :
    Except Unit (VerifyCounts × CustCarry × List (Nat × Status)) :=
  let (cnt, carry, outs) := st
  let cnt := { cnt with checked := cnt.checked + 1 }
  match verifyConvOf item with
  | none =>
    Except.ok ({ cnt with promoted := cnt.promoted + 1 }, carry,
      outs ++ [(item.issue.id, Status.OPEN)])
  | some _ =>
    match item.fetch with
    | none =>
      Except.ok ({ cnt with errors := cnt.errors + 1 }, carry, outs)
    | some msgs =>
      match msgs.foldlM (scanMsg vc.allow item.issue.first_inbound_ts)
          (initScan, carry) with
      | Except.error e => Except.error e
      | Except.ok (s, cust) =>
        match ackAfterStaff vc.bc vc.ack vc.ackMaxLen s cust with
        | Except.error e => Except.error e
        | Except.ok ack =>
          Except.ok (verifyFinish vc cnt outs item.issue.id item.ai s cust ack)

/-- The SMS half of the `verify_pending` job over its selected batch.  An
uncaught exception in any iteration aborts the whole request — no counts
are returned and the remaining items are never processed. -/
def verifySmsBatch (vc : VerifyCfg) (items : List VerifyItem) :
    Except Unit (VerifyCounts × List (Nat × Status)) := do
  let (cnt, _, outs) ←
    items.foldlM (verifySmsStep vc) (initVerifyCounts, (none : CustCarry), [])
  Except.ok (cnt, outs)

/-- The scan loop of the CALL half of `verify_pending` (lines 2307-2324):
returns `(outbound_after, out_count)`.  Its locals are all initialised, so
no error is possible (the `latest_staff_ts` locals of that loop are never
assigned and the update at line 2326 is dead code). -/
def callScan (allow : List String) (createdUtc : Option Nat)
    (msgs : List Msg) : Bool × Nat :=
  msgs.foldl
    (fun (acc : Bool × Nat) m =>
      if msgIsStaffOutbound allow m then
        let acc := (acc.1, acc.2 + 1)
        match createdUtc, m.dateAdded with
        | some c, some ts => if c < ts then (true, acc.2) else acc
        | _, _ => acc
      else acc)
    (false, 0)

/-! ## Manager resolve/spam actions (main.py lines 1111-1120, 1285-1295) -/

/-- Embeds `resolve_by_id(issue_id, status)`: an UPDATE guarded by
`WHERE status='OPEN' AND id=?`, returning the SQLite rowcount. -/
def resolveById (S : Store) (iid : Nat) (newStatus : Status) (now : Nat) :
    Store × Nat :=
  let hits := (S.issues.filter
    (fun i => i.status == Status.OPEN && i.id == iid)).length
  ({ S with issues := S.issues.map (fun i =>
      if i.status == Status.OPEN && i.id == iid then
        { i with status := newStatus, resolved_ts := some now }
      else i) },
   hits)

/-- Embeds `resolve_by_phone(phone, status)`: the same UPDATE guarded by
`WHERE status='OPEN' AND phone=?`. -/
def resolveByPhone (S : Store) (phone : String) (newStatus : Status)
    (now : Nat) : Store × Nat :=
  let hits := (S.issues.filter
    (fun i => i.status == Status.OPEN && i.phone == some phone)).length
  ({ S with issues := S.issues.map (fun i =>
      if i.status == Status.OPEN && i.phone == some phone then
        { i with status := newStatus, resolved_ts := some now }
      else i) },
   hits)

/-- Embeds `mark_spam(phone)` (lines 720-727): `INSERT OR IGNORE`. -/
def markSpam (S : Store) (phone : String) : Store :=
  if S.spam_phones.contains phone then S
  else { S with spam_phones := S.spam_phones ++ [phone] }

/-! ## Escalations job (main.py lines 2708-2836)

The core of `/jobs/escalations` after its best-effort poll/verify
sub-sweeps (both wrapped in `try/except`, lines 2716-2723): select OPEN,
overdue, not-yet-notified issues ordered by `due_ts` (`sortByDue` models
`ORDER BY due_ts ASC`) up to `limit`; build one batched alert; deliver it
to every configured manager (`deliveries` records each recipient's
success); and mark `breach_notified_ts` for the whole batch only when at
least one delivery succeeded (lines 2821-2829). -/

def insertByDue (i : Issue) : List Issue → List Issue
  | [] => [i]
  | j :: js =>
    if i.due_ts ≤ j.due_ts then i :: j :: js else j :: insertByDue i js

def sortByDue : List Issue → List Issue
  | [] => []
  | i :: rest => insertByDue i (sortByDue rest)

def escBreached (now : Nat) (i : Issue) : Bool :=
  i.status == Status.OPEN && decide (i.due_ts ≤ now) &&
  i.breach_notified_ts == none

structure EscResult where
  newBreaches : Nat
  sent : Bool
  alerted : List Nat
deriving DecidableEq

/-- The breach query of `/jobs/escalations` (lines 2726-2734). -/
def escRows (S : Store) (now limit : Nat) : List Issue :=
  (sortByDue (S.issues.filter (escBreached now))).take limit

/-- The batch UPDATE of lines 2825-2826:
`SET breach_notified_ts=now WHERE id IN ids AND breach_notified_ts IS NULL`. -/
def escMark (ids : List Nat) (now : Nat) (i : Issue) : Issue :=
  if ids.contains i.id && i.breach_notified_ts == none then
    { i with breach_notified_ts := some now }
  else i

def escalationsRun (S : Store) (now : Nat) (limit : Nat)
    (deliveries : List Bool) : Store × EscResult :=
  let rows := escRows S now limit
  if rows.isEmpty then (S, ⟨0, false, []⟩)
  else
    let sentOk := deliveries.any (fun b => b)
    if sentOk then
      let ids := rows.map Issue.id
      ({ S with issues := S.issues.map (escMark ids now) },
       ⟨rows.length, true, ids⟩)
    else (S, ⟨rows.length, false, []⟩)

/-! ## Concrete instances used by the theorems below -/

/-- The default configuration of the detector: ack close-out enabled in
`eod` mode (12h fallback window), `ACK_CLOSE_MAX_LEN = 80`, a one-element
`INTERNAL_USER_IDS` allow-list, `AI_GATE_SUPPRESS_NO_CONFIDENCE = 0.90`,
`AI_GATE_MAX_ISSUES_PER_RUN = 20`. -/
def vcDefault : VerifyCfg :=
  ⟨defaultBC, ⟨true, true, 43200⟩, 80, ["mgr1"], 9/10, 20⟩

/-- The fail-open classifier default `{"YES", 0.0}`. -/
def aiYesLow : AiGateResult := ⟨"YES", 0⟩

def c2Issue1 : Issue :=
  ⟨101, IssueType.SMS, none, some "+15550001111", none, 1000, 9000,
   Status.PENDING, none, some 1000, some 1000, 1, 0, some "convA", none⟩

def c2Issue2 : Issue :=
  ⟨102, IssueType.SMS, none, some "+15550002222", none, 1100, 9100,
   Status.PENDING, none, some 1100, some 1100, 1, 0, some "convB", none⟩

/-- A customer inbound message with a parseable `dateAdded`. -/
def c2Inbound : Msg :=
  ⟨some "inbound", some 1000, some "water heater is leaking", none⟩

def c2Item1 : VerifyItem := ⟨c2Issue1, none, some [c2Inbound], aiYesLow⟩

def c2Item2 : VerifyItem := ⟨c2Issue2, none, some [], aiYesLow⟩

def c3Inbound : Msg :=
  ⟨some "inbound", some 1000, some "no hot water since monday", none⟩

/-- A qualifying staff reply: outbound, `userId` on the allow-list,
timestamped strictly after the first inbound (1600 > 1000). -/
def c3Staff : Msg := ⟨some "outbound", some 1600, some "on our way", some "mgr1"⟩

/-- A qualifying staff reply at Monday 09:10 (t = 33000). -/
def c4Staff : Msg :=
  ⟨some "outbound", some 33000, some "All set, your pump is replaced", some "mgr1"⟩

/-- The customer acknowledgement ten minutes later (t = 33600). -/
def c4Thanks : Msg := ⟨some "inbound", some 33600, some "thanks!", none⟩

def c8OpenIssue : Issue :=
  ⟨3, IssueType.SMS, none, some "+15550003333", none, 1000, 9000,
   Status.OPEN, none, some 1000, some 1000, 1, 0, none, none⟩

def c8PendingIssue : Issue :=
  ⟨4, IssueType.SMS, none, some "+15550004444", none, 1000, 9000,
   Status.PENDING, none, some 1000, some 1000, 1, 0, none, none⟩

def c8Store : Store := ⟨[c8OpenIssue, c8PendingIssue], [], [], 5⟩

def c7Cfg : IngestCfg := ⟨defaultBC, ⟨true, true, 43200⟩, 80, 7200, 7200⟩

/-- First customer inbound event for conversation `convC`, Monday 09:00. -/
def c7E1 : SmsEvent :=
  ⟨"my pool pump died", some "cust1", some "+15551234567", some "convC",
   some "Pat", "inbound", false⟩

/-- Second customer inbound event for the same conversation, Monday 10:00. -/
def c7E2 : SmsEvent :=
  ⟨"any update on this?", some "cust1", some "+15551234567", some "convC",
   some "Pat", "inbound", false⟩

def c7Store0 : Store := ⟨[], [], [], 1⟩

def c7S1 : Store := (inboundSms c7Cfg 32400 c7E1 c7Store0).1

def c7S2 : Store := (inboundSms c7Cfg 36000 c7E2 c7S1).1

/-- The store after the sole issue for `convC` has been marked RESOLVED. -/
def c7SResolved : Store :=
  { c7S2 with issues := c7S2.issues.map (fun i =>
      { i with status := Status.RESOLVED, resolved_ts := some 40000 }) }

/-- An OPEN, overdue, not-yet-notified issue for the escalation sweep. -/
def c6Issue : Issue :=
  ⟨7, IssueType.CALL, none, some "+15550007777", none, 1000, 2000,
   Status.OPEN, none, some 1000, some 1000, 1, 0, none, none⟩

def c6Store : Store := ⟨[c6Issue], [], [], 8⟩

/-- A PENDING CALL issue for conversation `convD`. -/
def c1CallIssue : Issue :=
  ⟨1, IssueType.CALL, none, some "+15559998888", none, 1000, 9000,
   Status.PENDING, none, some 1000, some 1000, 1, 0, some "convD", none⟩

def c1Store : Store := ⟨[c1CallIssue], [], [], 2⟩

end Sentinel

namespace Sentinel

/-! ## Theorems -/

/-- Claim C5: the fallback classifier tier resolves an issue if and only if
the classifier returned verdict NO with confidence at or above the
configured threshold; every failure, timeout, missing configuration, empty
transcript or ambiguous verdict is normalised to `{YES, 0}` and never
resolves; `{NO, 0.95}` against threshold `0.90` resolves, `{NO, 0.80}` does
not, and an HTTP error never does. -/
theorem c5_theorem :
    (∀ thr : ℚ, ∀ u : AiUpstream, (∀ n c, u ≠ AiUpstream.ok n c) →
      aiGateClassify u = ⟨"YES", 0⟩ ∧ aiSuppress thr (aiGateClassify u) = false)
  ∧ (∀ thr : ℚ, ∀ n : String, ∀ c : ℚ,
      (aiSuppress thr (aiGateClassify (AiUpstream.ok (some n) (some c))) = true
        ↔ (upperStr n = "NO" ∧ thr ≤ max 0 (min 1 c))))
  ∧ aiSuppress (9/10) (aiGateClassify (AiUpstream.ok (some "NO") (some (95/100)))) = true
  ∧ aiSuppress (9/10) (aiGateClassify (AiUpstream.ok (some "NO") (some (80/100)))) = false
  ∧ (∀ thr : ℚ, ∀ status : Nat,
      aiSuppress thr (aiGateClassify (AiUpstream.httpError status)) = false) := by
  have hclamp95 : max (0:ℚ) (min 1 (95/100)) = 95/100 := by
    rw [min_eq_right (by norm_num : (95:ℚ)/100 ≤ 1)]
    exact max_eq_right (by norm_num)
  have hclamp80 : max (0:ℚ) (min 1 (80/100)) = 80/100 := by
    rw [min_eq_right (by norm_num : (80:ℚ)/100 ≤ 1)]
    exact max_eq_right (by norm_num)
  refine ⟨?_, ?_, ?_, ?_, ?_⟩
  case refine_3 =>
    rw [show aiGateClassify (AiUpstream.ok (some "NO") (some (95/100)))
          = ⟨"NO", max 0 (min 1 (95/100))⟩ from rfl, hclamp95]
    simp only [aiSuppress, beq_self_eq_true, Bool.true_and,
      decide_eq_true_eq]
    norm_num
  case refine_4 =>
    rw [show aiGateClassify (AiUpstream.ok (some "NO") (some (80/100)))
          = ⟨"NO", max 0 (min 1 (80/100))⟩ from rfl, hclamp80]
    simp only [aiSuppress, beq_self_eq_true, Bool.true_and,
      decide_eq_false_iff_not]
    norm_num
  · intro thr u h
    cases u with
    | ok n c => exact absurd rfl (h n c)
    | disabled => exact ⟨rfl, rfl⟩
    | missingKey => exact ⟨rfl, rfl⟩
    | noWindow => exact ⟨rfl, rfl⟩
    | emptyTranscript => exact ⟨rfl, rfl⟩
    | httpError s => exact ⟨rfl, rfl⟩
    | emptyResponse => exact ⟨rfl, rfl⟩
    | exn => exact ⟨rfl, rfl⟩
  · intro thr n c
    by_cases hn : n = ""
    · subst hn
      simp [aiGateClassify, aiSuppress, upperStr]
    · by_cases h2 : upperStr n = "NO"
      · simp [aiGateClassify, aiSuppress, hn, h2]
      · by_cases h3 : upperStr n = "YES"
        · simp [aiGateClassify, aiSuppress, hn, h2, h3]
        · simp [aiGateClassify, aiSuppress, hn, h2, h3]
  · intro thr status
    rfl

/-- Witness for C5: the failure conjunct applied to an HTTP 500 outcome at
threshold 0. -/
theorem c5_witness :
    aiGateClassify (AiUpstream.httpError 500) = ⟨"YES", 0⟩
    ∧ aiSuppress 0 (aiGateClassify (AiUpstream.httpError 500)) = false :=
  c5_theorem.1 0 (AiUpstream.httpError 500) (fun _ _ h => by cases h)

/-- Claim C2 (code bug): `verify_pending` reads its
`latest_customer_inbound_ts` local before any assignment (line 2163), so
the first overdue PENDING SMS issue whose fetched history contains an
inbound message with a parseable timestamp raises `UnboundLocalError`: the
whole job aborts with no counts and the rest of the batch is never
processed — even though the same remaining batch on its own would complete
and return counts. -/
theorem c2_theorem :
    verifySmsBatch vcDefault [c2Item1, c2Item2] = Except.error ()
  ∧ verifySmsBatch vcDefault [c2Item2] =
      Except.ok (⟨1, 1, 0, 0, 1, 0⟩, [(102, Status.OPEN)]) := by
  exact ⟨rfl, rfl⟩

/-- Claim C3 (code bug): the staff-reply qualification itself behaves as
claimed (`c3Staff` qualifies, and is timestamped after the anchor), but a
PENDING SMS issue holding such a reply does not transition to RESOLVED on
boundary verification: the scan hits the uninitialised
`latest_customer_inbound_ts` local — at line 2163 when the history also
contains the customer's own inbound message, and otherwise at line 2172 in
the ack tier — and the job aborts, leaving the issue PENDING. -/
theorem c3_theorem :
    msgIsStaffOutbound ["mgr1"] c3Staff = true
  ∧ (1000 : Nat) < 1600
  ∧ verifySmsDecide vcDefault none (some 1000) [c3Inbound, c3Staff] aiYesLow
      = Except.error ()
  ∧ verifySmsDecide vcDefault none (some 1000) [c3Staff] aiYesLow
      = Except.error () := by
  exact ⟨by decide, by decide, rfl, rfl⟩

/-- Claim C4 (code bug): in the claimed scenario — ack close-out enabled in
`eod` mode, a qualifying staff reply at 09:10 and the customer's "thanks!"
ten minutes later — the ack-tier decision logic would indeed report a
tier-2 resolution (fourth conjunct), but the message scan that feeds it
reads the uninitialised `latest_customer_inbound_ts` local at line 2163 on
the customer's message and the job aborts before any transition (fifth
conjunct). -/
theorem c4_theorem :
    isAckCloseout 80 (some "thanks!") = true
  ∧ msgIsStaffOutbound ["mgr1"] c4Staff = true
  ∧ (33600 : Nat) ≤ businessDayEndFor defaultBC 33000
  ∧ ackAfterStaff defaultBC ⟨true, true, 43200⟩ 80
      ⟨false, 1, some 33000, some "mgr1"⟩ (some (33600, "thanks!"))
      = Except.ok true
  ∧ verifySmsDecide vcDefault none (some 30000) [c4Staff, c4Thanks] aiYesLow
      = Except.error () := by
  exact ⟨by decide, by decide, by decide, rfl, rfl⟩

/-- Counterexample to claim C8: `resolve_by_id` is guarded by
`WHERE status='OPEN'`, so marking a PENDING issue SPAM is a no-op — the
rowcount is 0 and the store is unchanged. -/
theorem c8_counterexample :
    c8PendingIssue.status = Status.PENDING
  ∧ c8PendingIssue ∈ c8Store.issues
  ∧ (resolveById c8Store 4 Status.SPAM 99999).2 = 0
  ∧ (resolveById c8Store 4 Status.SPAM 99999).1 = c8Store := by
  exact ⟨rfl, by decide, by decide, by decide⟩

/-- With an empty `INTERNAL_USER_IDS` allow-list no message qualifies as a
staff reply. -/
theorem msgStaff_empty_allow (m : Msg) : msgIsStaffOutbound [] m = false := by
  unfold msgIsStaffOutbound
  split
  · rfl
  · cases m.userId with
    | none => rfl
    | some uid =>
      simp only [List.isEmpty_nil]
      split
      · rfl
      · rfl

theorem pollScan_empty_allow (fi : Option Nat) (msgs : List Msg) :
    pollScan [] fi msgs = initScan := by
  unfold pollScan
  induction msgs with
  | nil => rfl
  | cons m rest ih =>
    rw [List.foldl_cons,
      show (if msgIsStaffOutbound [] m = true then staffScanStep fi initScan m
            else initScan) = initScan by
        rw [msgStaff_empty_allow]
        simp]
    exact ih

/-- With an empty allow-list, one step of the `verify_pending` scan returns
(if it does not abort) a state whose `SmsScan` half is unchanged. -/
theorem scanMsg_empty_allow_fst (fi : Option Nat) (st : SmsScan × CustCarry)
    (m : Msg) (res : SmsScan × CustCarry)
    (h : scanMsg [] fi st m = Except.ok res) : res.1 = st.1 := by
  obtain ⟨s, cust⟩ := st
  unfold scanMsg at h
  rw [msgStaff_empty_allow] at h
  simp only [Bool.false_eq_true, if_false] at h
  by_cases hdir : msgDirection m = "inbound"
  · rw [if_pos hdir] at h
    cases hd : m.dateAdded with
    | none => rw [hd] at h; cases h; rfl
    | some ts =>
      rw [hd] at h
      cases hc : cust with
      | none => rw [hc] at h; cases h
      | some p =>
        obtain ⟨prev, ptxt⟩ := p
        rw [hc] at h
        dsimp only at h
        by_cases hlt : prev < ts
        · rw [if_pos hlt] at h; cases h; rfl
        · rw [if_neg hlt] at h; cases h; rfl
  · rw [if_neg hdir] at h; cases h; rfl

theorem scanFold_empty_allow_fst (fi : Option Nat) (msgs : List Msg)
    (st res : SmsScan × CustCarry)
    (h : msgs.foldlM (scanMsg [] fi) st = Except.ok res) : res.1 = st.1 := by
  induction msgs generalizing st with
  | nil =>
    simp only [List.foldlM_nil] at h
    cases h
    rfl
  | cons m rest ih =>
    rw [List.foldlM_cons] at h
    cases hstep : scanMsg [] fi st m with
    | error e => rw [hstep] at h; cases h
    | ok st' =>
      rw [hstep] at h
      have h1 := ih st' h
      rw [h1]
      exact scanMsg_empty_allow_fst fi st m st' hstep

/-- Claim C10: with an empty or unconfigured `INTERNAL_USER_IDS` allow-list,
`_msg_is_staff_outbound` rejects every message, so the fast poll resolves
nothing (its scan stays at the initial state and its resolve flag is false)
and boundary verification never sets its tier-1 `outbound_after` flag (its
staff counter stays 0 as well) whenever its scan completes. -/
theorem c10_theorem :
    (∀ m, msgIsStaffOutbound [] m = false)
  ∧ (∀ (fi : Option Nat) (msgs : List Msg), pollScan [] fi msgs = initScan)
  ∧ (∀ (fi : Option Nat) (msgs : List Msg), pollResolves [] fi msgs = false)
  ∧ (∀ (fi : Option Nat) (msgs : List Msg) (carry : CustCarry)
      (res : SmsScan × CustCarry),
      msgs.foldlM (scanMsg [] fi) (initScan, carry) = Except.ok res →
      res.1.outboundAfter = false ∧ res.1.outCount = 0) := by
  refine ⟨msgStaff_empty_allow, pollScan_empty_allow, ?_, ?_⟩
  · intro fi msgs
    unfold pollResolves
    rw [pollScan_empty_allow]
    rfl
  · intro fi msgs carry res h
    have := scanFold_empty_allow_fst fi msgs (initScan, carry) res h
    rw [this]
    exact ⟨rfl, rfl⟩

/-- Witness for C10: the quantified scan conjunct applied to the empty
history, whose scan trivially completes. -/
theorem c10_witness :
    (initScan, (none : CustCarry)).1.outboundAfter = false
    ∧ (initScan, (none : CustCarry)).1.outCount = 0 :=
  c10_theorem.2.2.2 none [] none (initScan, none) rfl

/-- Every status a `verify_pending` SMS iteration records is RESOLVED or
OPEN (both writes are guarded by `WHERE status='PENDING'`). -/
theorem verifyFinish_outs (vc : VerifyCfg) (cnt : VerifyCounts)
    (outs : List (Nat × Status)) (iid : Nat) (ai : AiGateResult)
    (s : SmsScan) (cust : CustCarry) (ack : Bool) :
    (verifyFinish vc cnt outs iid ai s cust ack).2.2
      = outs ++ [(iid, Status.RESOLVED)]
    ∨ (verifyFinish vc cnt outs iid ai s cust ack).2.2
      = outs ++ [(iid, Status.OPEN)] := by
  unfold verifyFinish
  by_cases hres : (s.outboundAfter || ack
      || (verifyAiStep vc cnt ai (s.outboundAfter || ack)).1) = true
  · rw [if_pos hres]
    exact Or.inl rfl
  · rw [if_neg hres]
    exact Or.inr rfl

theorem verifyStep_out_status (vc : VerifyCfg)
    (st res : VerifyCounts × CustCarry × List (Nat × Status))
    (item : VerifyItem) (h : verifySmsStep vc st item = Except.ok res) :
    ∀ pr ∈ res.2.2,
      pr ∈ st.2.2 ∨ pr.2 = Status.RESOLVED ∨ pr.2 = Status.OPEN := by
  obtain ⟨cnt, carry, outs⟩ := st
  unfold verifySmsStep at h
  cases hcv : verifyConvOf item with
  | none =>
    rw [hcv] at h
    cases h
    intro pr hpr
    rcases List.mem_append.mp hpr with hl | hr
    · exact Or.inl hl
    · simp only [List.mem_singleton] at hr
      subst hr
      exact Or.inr (Or.inr rfl)
  | some cval =>
    rw [hcv] at h
    cases hf : item.fetch with
    | none =>
      rw [hf] at h
      cases h
      intro pr hpr
      exact Or.inl hpr
    | some msgs =>
      rw [hf] at h
      dsimp only at h
      cases hscan : msgs.foldlM
          (scanMsg vc.allow item.issue.first_inbound_ts) (initScan, carry) with
      | error e => rw [hscan] at h; cases h
      | ok p =>
        obtain ⟨s, cust⟩ := p
        rw [hscan] at h
        dsimp only at h
        cases hack : ackAfterStaff vc.bc vc.ack vc.ackMaxLen s cust with
        | error e => rw [hack] at h; cases h
        | ok ack =>
          rw [hack] at h
          dsimp only at h
          cases h
          intro pr hpr
          rcases verifyFinish_outs vc { cnt with checked := cnt.checked + 1 }
              outs item.issue.id item.ai s cust ack with hfin | hfin <;>
            rw [hfin] at hpr <;>
            rcases List.mem_append.mp hpr with hl | hr
          · exact Or.inl hl
          · simp only [List.mem_singleton] at hr
            subst hr
            exact Or.inr (Or.inl rfl)
          · exact Or.inl hl
          · simp only [List.mem_singleton] at hr
            subst hr
            exact Or.inr (Or.inr rfl)

theorem verifyFold_out_status (vc : VerifyCfg) (items : List VerifyItem)
    (st res : VerifyCounts × CustCarry × List (Nat × Status))
    (h : items.foldlM (verifySmsStep vc) st = Except.ok res) :
    ∀ pr ∈ res.2.2,
      pr ∈ st.2.2 ∨ pr.2 = Status.RESOLVED ∨ pr.2 = Status.OPEN := by
  induction items generalizing st with
  | nil =>
    simp only [List.foldlM_nil] at h
    cases h
    intro pr hpr
    exact Or.inl hpr
  | cons item rest ih =>
    rw [List.foldlM_cons] at h
    cases hstep : verifySmsStep vc st item with
    | error e => rw [hstep] at h; cases h
    | ok st' =>
      rw [hstep] at h
      intro pr hpr
      rcases ih st' h pr hpr with hmem | hres
      · rcases verifyStep_out_status vc st st' item hstep pr hmem with
          hmem2 | hres2
        · exact Or.inl hmem2
        · exact Or.inr hres2
      · exact Or.inr hres

/-- Claim C8 as amended: explicit manager action transitions an issue to
SPAM only from OPEN — `resolve_by_id`'s UPDATE is guarded by
`WHERE status='OPEN'`, so an OPEN issue transitions (with `resolved_ts`
set) while a non-OPEN issue (in particular a PENDING one) is left exactly
as it was; boundary verification itself only ever records RESOLVED or OPEN;
and ingesting a CALL event for a spam-listed phone creates no issue. -/
theorem c8_theorem :
    (∀ (S : Store) (iid now : Nat) (i : Issue), i ∈ S.issues → i.id = iid →
       i.status = Status.OPEN →
       ∃ j ∈ (resolveById S iid Status.SPAM now).1.issues,
         j.id = iid ∧ j.status = Status.SPAM ∧ j.resolved_ts = some now)
  ∧ (∀ (S : Store) (iid now : Nat) (ns : Status) (i : Issue), i ∈ S.issues →
       i.status ≠ Status.OPEN → i ∈ (resolveById S iid ns now).1.issues)
  ∧ (∀ (cfg : IngestCfg) (now : Nat) (routes : List String)
       (cid conv name : Option String) (S : Store) (p : String),
       routes.contains "tech_sentinel" = true →
       isSpamPhone S (some p) = true →
       unansweredCall cfg now routes cid (some p) conv name S
         = (S, CallOutcome.ignoredSpam))
  ∧ (∀ (vc : VerifyCfg) (items : List VerifyItem)
       (res : VerifyCounts × List (Nat × Status)),
       verifySmsBatch vc items = Except.ok res →
       ∀ pr ∈ res.2, pr.2 = Status.RESOLVED ∨ pr.2 = Status.OPEN) := by
  refine ⟨?_, ?_, ?_, ?_⟩
  · intro S iid now i hi hid hst
    have hc : (i.status == Status.OPEN && i.id == iid) = true := by
      rw [hst, hid]
      simp
    refine ⟨{ i with status := Status.SPAM, resolved_ts := some now },
      List.mem_map.mpr ⟨i, hi, ?_⟩, hid, rfl, rfl⟩
    simp only [hc, if_true]
  · intro S iid now ns i hi hst
    have hc : (i.status == Status.OPEN && i.id == iid) = false := by
      have h1 : (i.status == Status.OPEN) = false := by
        simpa using hst
      rw [h1]
      rfl
    refine List.mem_map.mpr ⟨i, hi, ?_⟩
    simp only [hc, Bool.false_eq_true, if_false]
  · intro cfg now routes cid conv name S p hroute hspam
    unfold unansweredCall
    rw [if_neg (by rw [hroute]; exact fun hcon => hcon rfl)]
    rw [if_pos hspam]
  · intro vc items res h
    unfold verifySmsBatch at h
    cases hfold : items.foldlM (verifySmsStep vc)
        (initVerifyCounts, (none : CustCarry), ([] : List (Nat × Status))) with
    | error e => rw [hfold] at h; cases h
    | ok st' =>
      rw [hfold] at h
      obtain ⟨cnt', carry', outs'⟩ := st'
      cases h
      intro pr hpr
      rcases verifyFold_out_status vc items _ _ hfold pr hpr with hmem | hres
      · cases hmem
      · exact hres

/-- Witness for C8: the OPEN-to-SPAM conjunct applied to the concrete
store, and the spam-guard conjunct applied to a spam-listed phone. -/
theorem c8_witness :
    (∃ j ∈ (resolveById c8Store 3 Status.SPAM 777).1.issues,
      j.id = 3 ∧ j.status = Status.SPAM ∧ j.resolved_ts = some 777)
  ∧ unansweredCall ⟨defaultBC, ⟨true, true, 43200⟩, 80, 7200, 7200⟩ 1000
      ["tech_sentinel"] none (some "+15550009999") none none
      ⟨[], ["+15550009999"], [], 1⟩
      = (⟨[], ["+15550009999"], [], 1⟩, CallOutcome.ignoredSpam) :=
  ⟨c8_theorem.1 c8Store 3 777 c8OpenIssue (by decide) rfl rfl,
   c8_theorem.2.2.1 _ 1000 ["tech_sentinel"] none none none _ "+15550009999"
     (by decide) (by decide)⟩

/-- Claim C7: SMS dedup is scoped to active statuses.  The general conjunct
covers the in-place UPDATE of the find-or-create tail: when a matching
active row exists, no row is added, and every row keeps its id, `due_ts`
and status, with the matched row's `inbound_count` incremented.  The
concrete conjuncts replay the claimed scenario: two inbound events for the
known conversation `convC` yield exactly one row with `inbound_count = 2`
and `due_ts` identical to the first event's; once that sole issue is
RESOLVED, a further inbound event creates a new issue. -/
theorem c7_theorem :
    (∀ (cfg : IngestCfg) (now : Nat) (e : SmsEvent) (S : Store) (rid : Nat),
      (inboundSmsDedup cfg now e S).2 = SmsOutcome.updated rid →
      ((inboundSmsDedup cfg now e S).1.issues.length = S.issues.length
       ∧ ∀ i ∈ S.issues, ∃ j ∈ (inboundSmsDedup cfg now e S).1.issues,
           j.id = i.id ∧ j.due_ts = i.due_ts ∧ j.status = i.status
           ∧ (i.id = rid → j.inbound_count = i.inbound_count + 1)))
  ∧ (inboundSms c7Cfg 32400 c7E1 c7Store0).2 = SmsOutcome.created 1
  ∧ (inboundSms c7Cfg 36000 c7E2 c7S1).2 = SmsOutcome.updated 1
  ∧ c7S2.issues.length = 1
  ∧ (∀ i ∈ c7S2.issues, i.inbound_count = 2 ∧ i.due_ts = 39600
      ∧ i.first_inbound_ts = some 32400 ∧ i.status = Status.PENDING)
  ∧ (∀ j ∈ c7S1.issues, j.due_ts = 39600 ∧ j.inbound_count = 1)
  ∧ (inboundSms c7Cfg 50000 c7E2 c7SResolved).2 = SmsOutcome.created 2
  ∧ (inboundSms c7Cfg 50000 c7E2 c7SResolved).1.issues.length = 2 := by
  refine ⟨?_, by decide, by decide, by decide, by decide, by decide,
    by decide, by decide⟩
  intro cfg now e S rid h
  unfold inboundSmsDedup at h ⊢
  cases hrow : smsDedupRow e S with
  | none =>
    rw [hrow] at h
    cases h
  | some r =>
    rw [hrow] at h
    dsimp only at h ⊢
    injection h with hrid
    subst hrid
    refine ⟨List.length_map _ _, ?_⟩
    intro i hi
    by_cases hid : i.id = r.id
    · refine ⟨applySmsUpdate now e i, List.mem_map.mpr ⟨i, hi, ?_⟩,
        rfl, rfl, rfl, fun _ => rfl⟩
      rw [if_pos hid]
    · refine ⟨i, List.mem_map.mpr ⟨i, hi, ?_⟩, rfl, rfl, rfl,
        fun hcon => absurd hcon hid⟩
      rw [if_neg hid]

/-- Witness for C7: the general UPDATE conjunct applied to the concrete
second ingestion, whose outcome is `updated 1`. -/
theorem c7_witness :
    (inboundSmsDedup c7Cfg 36000 c7E2 c7S1).1.issues.length
      = c7S1.issues.length
    ∧ ∀ i ∈ c7S1.issues, ∃ j ∈ (inboundSmsDedup c7Cfg 36000 c7E2 c7S1).1.issues,
        j.id = i.id ∧ j.due_ts = i.due_ts ∧ j.status = i.status
        ∧ (i.id = 1 → j.inbound_count = i.inbound_count + 1) :=
  c7_theorem.1 c7Cfg 36000 c7E2 c7S1 1 (by decide)

theorem mem_insertByDue (a i : Issue) (l : List Issue) :
    a ∈ insertByDue i l ↔ a = i ∨ a ∈ l := by
  induction l with
  | nil => simp [insertByDue]
  | cons j js ih =>
    unfold insertByDue
    by_cases hle : i.due_ts ≤ j.due_ts
    · rw [if_pos hle]
      simp [List.mem_cons]
    · rw [if_neg hle]
      simp only [List.mem_cons, ih]
      tauto

theorem mem_sortByDue (a : Issue) (l : List Issue) :
    a ∈ sortByDue l ↔ a ∈ l := by
  induction l with
  | nil => simp [sortByDue]
  | cons i is ih =>
    unfold sortByDue
    rw [mem_insertByDue]
    simp [List.mem_cons, ih]

theorem pairwise_id_unique (l : List Issue)
    (h : l.Pairwise (fun a b => a.id ≠ b.id)) :
    ∀ a ∈ l, ∀ b ∈ l, a.id = b.id → a = b := by
  induction l with
  | nil =>
    intro a ha
    cases ha
  | cons x xs ih =>
    rcases List.pairwise_cons.mp h with ⟨hx, hxs⟩
    intro a ha b hb heq
    rcases List.mem_cons.mp ha with rfl | ha2
    · rcases List.mem_cons.mp hb with rfl | hb2
      · rfl
      · exact absurd heq (hx b hb2)
    · rcases List.mem_cons.mp hb with rfl | hb2
      · exact absurd heq.symm (hx a ha2)
      · exact ih hxs a ha2 b hb2 heq

theorem escRows_sub (S : Store) (now limit : Nat) :
    ∀ r ∈ escRows S now limit, r ∈ S.issues ∧ escBreached now r = true := by
  intro r hr
  have h1 : r ∈ sortByDue (S.issues.filter (escBreached now)) :=
    List.take_subset _ _ hr
  have h2 := (mem_sortByDue r _).mp h1
  exact ⟨List.mem_of_mem_filter h2, List.of_mem_filter h2⟩

theorem escRun_fail (S : Store) (now limit : Nat) (d : List Bool)
    (hd : d.any (fun b => b) = false) :
    (escalationsRun S now limit d).1 = S
    ∧ (escalationsRun S now limit d).2.alerted = [] := by
  unfold escalationsRun
  by_cases he : (escRows S now limit).isEmpty
  · rw [if_pos he]
    exact ⟨rfl, rfl⟩
  · rw [if_neg he]
    dsimp only
    rw [hd]
    exact ⟨rfl, rfl⟩

theorem escRun_success (S : Store) (now limit : Nat) (d : List Bool)
    (hd : d.any (fun b => b) = true)
    (hne : ¬ (escRows S now limit).isEmpty = true) :
    (escalationsRun S now limit d).1.issues
      = S.issues.map (escMark ((escRows S now limit).map Issue.id) now)
    ∧ (escalationsRun S now limit d).2.alerted
      = (escRows S now limit).map Issue.id := by
  unfold escalationsRun
  rw [if_neg hne]
  dsimp only
  rw [hd]
  exact ⟨rfl, rfl⟩

theorem escRun_alerted_sub (S : Store) (now limit : Nat) (d : List Bool) :
    ∀ n ∈ (escalationsRun S now limit d).2.alerted,
      ∃ r ∈ escRows S now limit, r.id = n := by
  intro n hn
  by_cases hd : d.any (fun b => b) = true
  · by_cases hne : (escRows S now limit).isEmpty = true
    · unfold escalationsRun at hn
      rw [if_pos hne] at hn
      cases hn
    · rw [(escRun_success S now limit d hd hne).2] at hn
      rcases List.mem_map.mp hn with ⟨r, hr, hrid⟩
      exact ⟨r, hr, hrid⟩
  · rw [(escRun_fail S now limit d (by simpa using hd)).2] at hn
    cases hn

/-- Every issue reported as alerted by a run carries
`breach_notified_ts = some now` in the resulting store. -/
theorem escRun_marked (S : Store) (now limit : Nat) (d : List Bool)
    (hwf : StoreWF S) :
    ∀ i ∈ (escalationsRun S now limit d).1.issues,
      i.id ∈ (escalationsRun S now limit d).2.alerted →
      i.breach_notified_ts = some now := by
  intro i hi hid
  by_cases hd : d.any (fun b => b) = true
  · by_cases hne : (escRows S now limit).isEmpty = true
    · unfold escalationsRun at hid
      rw [if_pos hne] at hid
      cases hid
    · obtain ⟨hiss, halert⟩ := escRun_success S now limit d hd hne
      rw [hiss] at hi
      rw [halert] at hid
      rcases List.mem_map.mp hi with ⟨i0, hi0, hmark⟩
      rcases List.mem_map.mp hid with ⟨r, hr, hrid⟩
      obtain ⟨hrS, hrb⟩ := escRows_sub S now limit r hr
      have hbnone : r.breach_notified_ts = none := by
        have h3 := hrb
        simp only [escBreached, Bool.and_eq_true, beq_iff_eq] at h3
        exact h3.2
      have hidEq : i0.id = r.id := by
        have : i.id = i0.id := by
          rw [← hmark]
          unfold escMark
          by_cases hcond : (((escRows S now limit).map Issue.id).contains i0.id
              && i0.breach_notified_ts == none) = true
          · rw [if_pos hcond]
          · rw [if_neg hcond]
        rw [← this, hrid]
      have hi0r : i0 = r := pairwise_id_unique S.issues hwf.1 i0 hi0 r hrS hidEq
      have hcond : (((escRows S now limit).map Issue.id).contains i0.id
          && i0.breach_notified_ts == none) = true := by
        rw [hi0r, hbnone]
        have hmem : r.id ∈ (escRows S now limit).map Issue.id :=
          List.mem_map.mpr ⟨r, hr, rfl⟩
        simp [hmem]
      rw [← hmark]
      unfold escMark
      rw [if_pos hcond]
  · obtain ⟨_, halert⟩ := escRun_fail S now limit d (by simpa using hd)
    rw [halert] at hid
    cases hid

/-- A run preserves the primary-key facts. -/
theorem escRun_wf (S : Store) (now limit : Nat) (d : List Bool)
    (hwf : StoreWF S) : StoreWF (escalationsRun S now limit d).1 := by
  unfold escalationsRun
  by_cases hne : (escRows S now limit).isEmpty = true
  · rw [if_pos hne]
    exact hwf
  · rw [if_neg hne]
    by_cases hd : d.any (fun b => b) = true
    · rw [if_pos hd]
      constructor
      · have h1 := hwf.1
        have hmapid : ∀ i : Issue,
            (escMark ((escRows S now limit).map Issue.id) now i).id = i.id := by
          intro i
          unfold escMark
          by_cases hcond : (((escRows S now limit).map Issue.id).contains i.id
              && i.breach_notified_ts == none) = true
          · rw [if_pos hcond]
          · rw [if_neg hcond]
        refine (List.pairwise_map).mpr ?_
        refine h1.imp ?_
        intro a b hab
        rw [hmapid a, hmapid b]
        exact hab
      · intro i hi
        rcases List.mem_map.mp hi with ⟨i0, hi0, hmark⟩
        have := hwf.2 i0 hi0
        have hid : i.id = i0.id := by
          rw [← hmark]
          unfold escMark
          by_cases hcond : (((escRows S now limit).map Issue.id).contains i0.id
              && i0.breach_notified_ts == none) = true
          · rw [if_pos hcond]
          · rw [if_neg hcond]
        rw [hid]
        exact this
    · rw [if_neg hd]
      exact hwf

/-- Claim C6: the escalation sweep is one-shot per issue.  A fully failed
delivery leaves the store untouched (so the batch stays eligible for
retry); on success, `breach_notified_ts` is set to the same `now` for every
alerted issue; an already-set `breach_notified_ts` is never overwritten;
and an issue alerted by one run is never alerted again by the next run,
whatever its time, limit or delivery outcomes. -/
theorem c6_theorem :
    ∀ (S : Store) (now1 now2 limit1 limit2 : Nat) (d1 d2 : List Bool),
      StoreWF S →
      ((d1.any (fun b => b) = false →
         (escalationsRun S now1 limit1 d1).1 = S
         ∧ (escalationsRun S now1 limit1 d1).2.alerted = [])
       ∧ (∀ i ∈ (escalationsRun S now1 limit1 d1).1.issues,
            i.id ∈ (escalationsRun S now1 limit1 d1).2.alerted →
            i.breach_notified_ts = some now1)
       ∧ (∀ i ∈ S.issues, ∀ b : Nat, i.breach_notified_ts = some b →
            ∃ j ∈ (escalationsRun S now1 limit1 d1).1.issues,
              j.id = i.id ∧ j.breach_notified_ts = some b)
       ∧ (∀ n, n ∈ (escalationsRun S now1 limit1 d1).2.alerted →
            n ∉ (escalationsRun (escalationsRun S now1 limit1 d1).1
                  now2 limit2 d2).2.alerted)) := by
  intro S now1 now2 limit1 limit2 d1 d2 hwf
  refine ⟨escRun_fail S now1 limit1 d1, escRun_marked S now1 limit1 d1 hwf,
    ?_, ?_⟩
  · intro i hi b hb
    by_cases hd : d1.any (fun b => b) = true
    · by_cases hne : (escRows S now1 limit1).isEmpty = true
      · unfold escalationsRun
        rw [if_pos hne]
        exact ⟨i, hi, rfl, hb⟩
      · obtain ⟨hiss, _⟩ := escRun_success S now1 limit1 d1 hd hne
        rw [hiss]
        refine ⟨escMark ((escRows S now1 limit1).map Issue.id) now1 i,
          List.mem_map.mpr ⟨i, hi, rfl⟩, ?_, ?_⟩
        · unfold escMark
          have hcond : (((escRows S now1 limit1).map Issue.id).contains i.id
              && i.breach_notified_ts == none) = false := by
            rw [hb]
            simp
          rw [Bool.eq_false_iff.mp hcond |> if_neg]
        · unfold escMark
          have hcond : (((escRows S now1 limit1).map Issue.id).contains i.id
              && i.breach_notified_ts == none) = false := by
            rw [hb]
            simp
          rw [Bool.eq_false_iff.mp hcond |> if_neg]
          exact hb
    · obtain ⟨hS, _⟩ := escRun_fail S now1 limit1 d1 (by simpa using hd)
      rw [hS]
      exact ⟨i, hi, rfl, hb⟩
  · intro n hn1 hn2
    rcases escRun_alerted_sub _ now2 limit2 d2 n hn2 with ⟨r2, hr2, hrid2⟩
    obtain ⟨hr2mem, hr2br⟩ := escRows_sub _ now2 limit2 r2 hr2
    have hbnone : r2.breach_notified_ts = none := by
      simp only [escBreached, Bool.and_eq_true, beq_iff_eq] at hr2br
      exact hr2br.2
    have hmarked : r2.breach_notified_ts = some now1 :=
      escRun_marked S now1 limit1 d1 hwf r2 hr2mem (hrid2 ▸ hn1)
    rw [hbnone] at hmarked
    cases hmarked

/-- Witness for C6: both runs on a concrete one-issue store — the first
(successful) run alerts issue 7 and the second run does not alert it
again, and the failed-delivery conjunct on the same store. -/
theorem c6_witness :
    ((List.any [false, false] (fun b => b) = false →
       (escalationsRun c6Store 5000 200 [false, false]).1 = c6Store
       ∧ (escalationsRun c6Store 5000 200 [false, false]).2.alerted = [])
     ∧ (∀ i ∈ (escalationsRun c6Store 5000 200 [false, false]).1.issues,
          i.id ∈ (escalationsRun c6Store 5000 200 [false, false]).2.alerted →
          i.breach_notified_ts = some 5000)
     ∧ (∀ i ∈ c6Store.issues, ∀ b : Nat, i.breach_notified_ts = some b →
          ∃ j ∈ (escalationsRun c6Store 5000 200 [false, false]).1.issues,
            j.id = i.id ∧ j.breach_notified_ts = some b)
     ∧ (∀ n, n ∈ (escalationsRun c6Store 5000 200 [false, false]).2.alerted →
          n ∉ (escalationsRun
                (escalationsRun c6Store 5000 200 [false, false]).1
                6000 200 [true, true]).2.alerted)) :=
  c6_theorem c6Store 5000 6000 200 200 [false, false] [true, true]
    ⟨by simp [c6Store], by decide⟩

theorem activeB_iff (i : Issue) : activeB i = true ↔ i.activeP := by
  unfold activeB Issue.activeP
  simp [Bool.or_eq_true, beq_iff_eq]

theorem pickMaxId_mem (l : List Issue) (r : Issue)
    (h : pickMaxId l = some r) : r ∈ l := by
  induction l with
  | nil => cases h
  | cons i rest ih =>
    unfold pickMaxId at h
    cases hr : pickMaxId rest with
    | none =>
      rw [hr] at h
      cases h
      exact List.mem_cons_self _ _
    | some j =>
      rw [hr] at h
      dsimp only at h
      by_cases hle : j.id ≤ i.id
      · rw [if_pos hle] at h
        cases h
        exact List.mem_cons_self _ _
      · rw [if_neg hle] at h
        cases h
        exact List.mem_cons_of_mem _ (ih hr)

theorem pickMaxId_ne_none (i : Issue) (rest : List Issue) :
    pickMaxId (i :: rest) ≠ none := by
  unfold pickMaxId
  cases pickMaxId rest with
  | none => simp
  | some j =>
    dsimp only
    by_cases hle : j.id ≤ i.id
    · rw [if_pos hle]
      simp
    · rw [if_neg hle]
      simp

theorem latestActive_none (p : Issue → Bool) (l : List Issue)
    (h : latestActive p l = none) : ∀ x ∈ l, p x = false := by
  intro x hx
  cases hpt : p x with
  | false => rfl
  | true =>
    exfalso
    have hxf : x ∈ l.filter p := List.mem_filter.mpr ⟨hx, hpt⟩
    unfold latestActive at h
    cases hf : l.filter p with
    | nil =>
      rw [hf] at hxf
      cases hxf
    | cons y ys =>
      rw [hf] at h
      exact pickMaxId_ne_none y ys h

theorem latestActive_some (p : Issue → Bool) (l : List Issue) (r : Issue)
    (h : latestActive p l = some r) : r ∈ l ∧ p r = true := by
  unfold latestActive at h
  have hm := pickMaxId_mem _ _ h
  exact ⟨List.mem_of_mem_filter hm, List.of_mem_filter hm⟩

/-- A failed dedup lookup means no active SMS issue matches either key. -/
theorem smsDedupRow_none (e : SmsEvent) (S : Store)
    (h : smsDedupRow e S = none) :
    (∀ conv, e.conversation_id = some conv → ∀ x ∈ S.issues,
       ¬(x.activeP ∧ x.issue_type = IssueType.SMS
         ∧ x.conversation_id = some conv))
  ∧ (∀ p, e.from_phone = some p → ∀ x ∈ S.issues,
       ¬(x.activeP ∧ x.issue_type = IssueType.SMS ∧ x.phone = some p)) := by
  unfold smsDedupRow at h
  cases hcv : e.conversation_id with
  | none =>
    rw [hcv] at h
    dsimp only at h
    constructor
    · intro conv hconv
      cases hconv
    · intro p hp x hx hand
      rw [hp] at h
      dsimp only at h
      have hfalse := latestActive_none _ _ h x hx
      obtain ⟨h1, h2, h3⟩ := hand
      rw [(activeB_iff x).mpr h1, h2, h3] at hfalse
      simp at hfalse
  | some conv0 =>
    rw [hcv] at h
    dsimp only at h
    cases hbc : latestActive (fun i => activeB i
        && i.issue_type == IssueType.SMS
        && i.conversation_id == some conv0) S.issues with
    | some r =>
      rw [hbc] at h
      cases h
    | none =>
      rw [hbc] at h
      dsimp only at h
      constructor
      · intro conv hconv x hx hand
        injection hconv with hcc
        subst hcc
        have hfalse := latestActive_none _ _ hbc x hx
        obtain ⟨h1, h2, h3⟩ := hand
        rw [(activeB_iff x).mpr h1, h2, h3] at hfalse
        simp at hfalse
      · intro p hp x hx hand
        rw [hp] at h
        dsimp only at h
        have hfalse := latestActive_none _ _ h x hx
        obtain ⟨h1, h2, h3⟩ := hand
        rw [(activeB_iff x).mpr h1, h2, h3] at hfalse
        simp at hfalse

/-- A successful dedup lookup returns an active SMS row matched by the
conversation key, or — when the conversation key matched nothing — by the
phone key. -/
theorem smsDedupRow_some (e : SmsEvent) (S : Store) (r : Issue)
    (h : smsDedupRow e S = some r) :
    r ∈ S.issues ∧ r.activeP ∧ r.issue_type = IssueType.SMS
    ∧ ((∃ conv, e.conversation_id = some conv
         ∧ r.conversation_id = some conv)
       ∨ ((∀ conv, e.conversation_id = some conv → ∀ x ∈ S.issues,
             ¬(x.activeP ∧ x.issue_type = IssueType.SMS
               ∧ x.conversation_id = some conv))
          ∧ ∃ p, e.from_phone = some p ∧ r.phone = some p)) := by
  unfold smsDedupRow at h
  cases hcv : e.conversation_id with
  | none =>
    rw [hcv] at h
    dsimp only at h
    cases hph : e.from_phone with
    | none =>
      rw [hph] at h
      cases h
    | some p =>
      rw [hph] at h
      dsimp only at h
      obtain ⟨hm, hp⟩ := latestActive_some _ _ _ h
      simp only [Bool.and_eq_true, beq_iff_eq] at hp
      refine ⟨hm, (activeB_iff r).mp hp.1.1, hp.1.2, Or.inr ⟨?_, p, rfl, hp.2⟩⟩
      intro conv hconv
      cases hconv
  | some conv0 =>
    rw [hcv] at h
    dsimp only at h
    cases hbc : latestActive (fun i => activeB i
        && i.issue_type == IssueType.SMS
        && i.conversation_id == some conv0) S.issues with
    | some r0 =>
      rw [hbc] at h
      cases h
      obtain ⟨hm, hp⟩ := latestActive_some _ _ _ hbc
      simp only [Bool.and_eq_true, beq_iff_eq] at hp
      exact ⟨hm, (activeB_iff r).mp hp.1.1, hp.1.2,
        Or.inl ⟨conv0, rfl, hp.2⟩⟩
    | none =>
      rw [hbc] at h
      dsimp only at h
      cases hph : e.from_phone with
      | none =>
        rw [hph] at h
        cases h
      | some p =>
        rw [hph] at h
        dsimp only at h
        obtain ⟨hm, hp⟩ := latestActive_some _ _ _ h
        simp only [Bool.and_eq_true, beq_iff_eq] at hp
        refine ⟨hm, (activeB_iff r).mp hp.1.1, hp.1.2,
          Or.inr ⟨?_, p, rfl, hp.2⟩⟩
        intro conv hconv x hx hand
        injection hconv with hcc
        subst hcc
        have hfalse := latestActive_none _ _ hbc x hx
        obtain ⟨h1, h2, h3⟩ := hand
        rw [(activeB_iff x).mpr h1, h2, h3] at hfalse
        simp at hfalse

theorem clash_symm {a b : Issue} (h : clash a b) : clash b a := by
  obtain ⟨ht, ha, hb, hk⟩ := h
  refine ⟨ht.symm, hb, ha, ?_⟩
  rcases hk with ⟨hs, he⟩ | ⟨h1, h2, h3, h4⟩
  · refine Or.inl ⟨?_, he.symm⟩
    rw [← he]
    exact hs
  · refine Or.inr ⟨h2, h1, ?_, h4.symm⟩
    rw [← h4]
    exact h3

/-- The in-place UPDATE of the matched row introduces no clash with any
other row: the backfilled `conversation_id` / `phone` come from lookup keys
that matched nothing else. -/
theorem upd_no_clash (now : Nat) (e : SmsEvent) (S : Store) (r b : Issue)
    (hkey : (∃ conv, e.conversation_id = some conv
              ∧ r.conversation_id = some conv)
            ∨ ((∀ conv, e.conversation_id = some conv → ∀ x ∈ S.issues,
                  ¬(x.activeP ∧ x.issue_type = IssueType.SMS
                    ∧ x.conversation_id = some conv))
               ∧ ∃ p, e.from_phone = some p ∧ r.phone = some p))
    (hrtype : r.issue_type = IssueType.SMS)
    (hbmem : b ∈ S.issues)
    (hnc : ¬ clash r b) :
    ¬ clash (applySmsUpdate now e r) b := by
  intro hcl
  obtain ⟨ht, hact_r, hact_b, hk⟩ := hcl
  have htype : r.issue_type = b.issue_type := ht
  have hact_r2 : r.activeP := hact_r
  rcases hk with ⟨hsome, heq⟩ | ⟨hnone_r, hnone_b, hpsome, hpeq⟩
  · cases hrc : r.conversation_id with
    | some c0 =>
      have h5 : (applySmsUpdate now e r).conversation_id = some c0 := by
        simp [applySmsUpdate, hrc]
      apply hnc
      refine ⟨htype, hact_r2, hact_b, Or.inl ⟨?_, ?_⟩⟩
      · rw [hrc]
        rfl
      · rw [hrc, ← heq, h5]
    | none =>
      have h5 : (applySmsUpdate now e r).conversation_id
          = e.conversation_id := by
        simp [applySmsUpdate, hrc]
      cases hcv : e.conversation_id with
      | none =>
        rw [h5, hcv] at hsome
        cases hsome
      | some conv =>
        rcases hkey with ⟨conv2, _, hrc2⟩ | ⟨hfact, _, _, _⟩
        · rw [hrc] at hrc2
          cases hrc2
        · apply hfact conv hcv b hbmem
          refine ⟨hact_b, ?_, ?_⟩
          · rw [← ht]
            exact hrtype
          · rw [← heq, h5, hcv]
  · have hrc : r.conversation_id = none := by
      cases hrc0 : r.conversation_id with
      | none => rfl
      | some c0 =>
        have h5 : (applySmsUpdate now e r).conversation_id = some c0 := by
          simp [applySmsUpdate, hrc0]
        rw [h5] at hnone_r
        cases hnone_r
    have hecv : e.conversation_id = none := by
      have h5 : (applySmsUpdate now e r).conversation_id
          = e.conversation_id := by
        simp [applySmsUpdate, hrc]
      rw [← h5]
      exact hnone_r
    cases hrp : r.phone with
    | some p0 =>
      have h5 : (applySmsUpdate now e r).phone = some p0 := by
        simp [applySmsUpdate, hrp]
      apply hnc
      refine ⟨htype, hact_r2, hact_b, Or.inr ⟨hrc, hnone_b, ?_, ?_⟩⟩
      · rw [hrp]
        rfl
      · rw [hrp, ← hpeq, h5]
    | none =>
      rcases hkey with ⟨conv2, hcv2, _⟩ | ⟨_, p, _, hrp2⟩
      · rw [hecv] at hcv2
        cases hcv2
      · rw [hrp] at hrp2
        cases hrp2

/-- The find-or-create tail of `inbound_sms` preserves the at-most-one
invariant and the primary-key facts. -/
theorem dedup_preserves (cfg : IngestCfg) (now : Nat) (e : SmsEvent)
    (S : Store) (hwf : StoreWF S) (hinv : invariant S) :
    invariant (inboundSmsDedup cfg now e S).1
    ∧ StoreWF (inboundSmsDedup cfg now e S).1 := by
  unfold inboundSmsDedup
  cases hrow : smsDedupRow e S with
  | none =>
    dsimp only
    obtain ⟨hconvfact, hphonefact⟩ := smsDedupRow_none e S hrow
    constructor
    · unfold invariant
      rw [List.pairwise_append]
      refine ⟨hinv, List.pairwise_singleton _ _, ?_⟩
      intro a ha b hb
      rw [List.mem_singleton] at hb
      subst hb
      intro hcl
      obtain ⟨ht, hact_a, hact_b, hk⟩ := hcl
      rcases hk with ⟨hsome, heq⟩ | ⟨hanone, hbnone, hpsome, hpeq⟩
      · cases hcv : e.conversation_id with
        | none =>
          have h5 : (newSmsIssue S now
              (addBusinessSeconds cfg.bc now cfg.smsSlaSec) e).conversation_id
              = e.conversation_id := rfl
          rw [heq, h5, hcv] at hsome
          cases hsome
        | some conv =>
          apply hconvfact conv hcv a ha
          refine ⟨hact_a, ht.trans rfl, ?_⟩
          rw [heq]
          rw [show (newSmsIssue S now
            (addBusinessSeconds cfg.bc now cfg.smsSlaSec) e).conversation_id
              = e.conversation_id from rfl, hcv]
      · cases hph : e.from_phone with
        | none =>
          have h5 : (newSmsIssue S now
              (addBusinessSeconds cfg.bc now cfg.smsSlaSec) e).phone
              = e.from_phone := rfl
          rw [hpeq, h5, hph] at hpsome
          cases hpsome
        | some p =>
          apply hphonefact p hph a ha
          refine ⟨hact_a, ht.trans rfl, ?_⟩
          rw [hpeq]
          rw [show (newSmsIssue S now
            (addBusinessSeconds cfg.bc now cfg.smsSlaSec) e).phone
              = e.from_phone from rfl, hph]
    · constructor
      · rw [List.pairwise_append]
        refine ⟨hwf.1, List.pairwise_singleton _ _, ?_⟩
        intro a ha b hb
        rw [List.mem_singleton] at hb
        subst hb
        have hlt := hwf.2 a ha
        intro hid
        rw [show (newSmsIssue S now
          (addBusinessSeconds cfg.bc now cfg.smsSlaSec) e).id
            = S.nextId from rfl] at hid
        omega
      · intro i hi
        rcases List.mem_append.mp hi with h1 | h2
        · exact Nat.lt_succ_of_lt (hwf.2 i h1)
        · rw [List.mem_singleton] at h2
          subst h2
          exact Nat.lt_succ_self _
  | some r =>
    dsimp only
    obtain ⟨hrmem, hract, hrtype, hkey⟩ := smsDedupRow_some e S r hrow
    have huniq := pairwise_id_unique S.issues hwf.1
    constructor
    · unfold invariant
      refine List.pairwise_map.mpr ?_
      refine (hinv.and hwf.1).imp_of_mem ?_
      intro a b ha hb hab
      obtain ⟨hnc, hneid⟩ := hab
      by_cases hai : a.id = r.id
      · have haR : a = r := huniq a ha r hrmem hai
        by_cases hbi : b.id = r.id
        · have hbR : b = r := huniq b hb r hrmem hbi
          rw [haR, hbR] at hneid
          exact absurd rfl hneid
        · rw [if_pos hai, if_neg hbi, haR]
          rw [haR] at hnc
          exact upd_no_clash now e S r b hkey hrtype hb hnc
      · by_cases hbi : b.id = r.id
        · have hbR : b = r := huniq b hb r hrmem hbi
          rw [if_neg hai, if_pos hbi, hbR]
          rw [hbR] at hnc
          intro hcl
          exact upd_no_clash now e S r a hkey hrtype ha
            (fun hc => hnc (clash_symm hc)) (clash_symm hcl)
        · rw [if_neg hai, if_neg hbi]
          exact hnc
    · constructor
      · have hmapid : ∀ i : Issue,
            ((fun i => if i.id = r.id then applySmsUpdate now e i else i)
              i).id = i.id := by
          intro i
          dsimp only
          by_cases hid : i.id = r.id
          · rw [if_pos hid]
            rfl
          · rw [if_neg hid]
        refine List.pairwise_map.mpr ?_
        refine hwf.1.imp ?_
        intro a b hab
        rw [hmapid a, hmapid b]
        exact hab
      · intro i hi
        rcases List.mem_map.mp hi with ⟨i0, hi0, hup⟩
        have hlt := hwf.2 i0 hi0
        have hid : i.id = i0.id := by
          rw [← hup]
          by_cases hid0 : i0.id = r.id
          · rw [if_pos hid0]
            rfl
          · rw [if_neg hid0]
        rw [hid]
        exact hlt

/-- Counterexample to claim C1: `unanswered_call` performs no dedup lookup,
so ingesting a second unanswered CALL for the same conversation while a
PENDING CALL issue for it exists yields two active CALL issues with the
same known `(kind, conversation_id)` key, violating the invariant. -/
theorem c1_counterexample :
    invariant c1Store ∧ StoreWF c1Store
  ∧ (unansweredCall c7Cfg 2000 ["tech_sentinel"] none (some "+15559998888")
      (some "convD") none c1Store).2 = CallOutcome.created 2
  ∧ ¬ invariant (unansweredCall c7Cfg 2000 ["tech_sentinel"] none
      (some "+15559998888") (some "convD") none c1Store).1 := by
  refine ⟨by decide, ⟨by decide, by decide⟩, by decide, by decide⟩

/-- Claim C1 as amended: every customer SMS ingestion preserves the
at-most-one-active-issue invariant (and the primary-key facts); CALL
ingestion does not preserve it — see the counterexample. -/
theorem c1_theorem :
    ∀ (cfg : IngestCfg) (now : Nat) (e : SmsEvent) (S : Store),
      e.is_internal = false → StoreWF S → invariant S →
      invariant (inboundSms cfg now e S).1
      ∧ StoreWF (inboundSms cfg now e S).1 := by
  intro cfg now e S hint hwf hinv
  unfold inboundSms
  rw [hint]
  simp only [Bool.false_eq_true, if_false]
  cases hcv : e.conversation_id <;> dsimp only <;>
    [skip; skip] <;>
  · by_cases hdir : e.direction = "outbound" ∨ e.direction = "outgoing"
    · rw [if_pos hdir]
      exact ⟨hinv, hwf⟩
    · rw [if_neg hdir]
      by_cases hsup : ackSuppressed cfg now e S = true
      · rw [if_pos hsup]
        exact ⟨hinv, hwf⟩
      · rw [if_neg hsup]
        exact dedup_preserves cfg now e S hwf hinv

/-- Witness for C1: the preservation theorem applied to the first concrete
customer ingestion, starting from the empty store. -/
theorem c1_witness :
    invariant (inboundSms c7Cfg 32400 c7E1 c7Store0).1
    ∧ StoreWF (inboundSms c7Cfg 32400 c7E1 c7Store0).1 :=
  c1_theorem c7Cfg 32400 c7E1 c7Store0 rfl ⟨by decide, by decide⟩ (by decide)

theorem rollAux_step (c : BConfig) (n t : Nat) :
    rollAux c (n + 1) t =
      if 5 ≤ weekday t then rollAux c n (mondayOpen c t)
      else if minsOfDay t < c.startTotal then todayOpen c t
      else if c.endTotal ≤ minsOfDay t then rollAux c n (nextDayOpen c t)
      else t := rfl

theorem roll_unfold (c : BConfig) (t : Nat) :
    rollToNextBusinessOpen c t =
      if 5 ≤ weekday t then rollAux c 2 (mondayOpen c t)
      else if minsOfDay t < c.startTotal then todayOpen c t
      else if c.endTotal ≤ minsOfDay t then rollAux c 2 (nextDayOpen c t)
      else t := rfl

/-- Weekday and minute-of-day of a canonical point built from day index
`k` and minute `m < 1440`. -/
theorem point_parts (k m : Nat) (hm : m ≤ 1439) :
    weekday (k * secPerDay + m * 60) = k % 7
    ∧ minsOfDay (k * secPerDay + m * 60) = m := by
  unfold weekday minsOfDay dayIndex secPerDay
  constructor <;> omega

theorem roll_in_window (c : BConfig) (t : Nat) (h5 : weekday t < 5)
    (h1 : c.startTotal ≤ minsOfDay t) (h2 : minsOfDay t < c.endTotal) :
    rollToNextBusinessOpen c t = t := by
  rw [roll_unfold, if_neg (by omega), if_neg (by omega), if_neg (by omega)]

theorem roll_weekend (c : BConfig) (t : Nat) (hv : c.valid)
    (hw : 5 ≤ weekday t) :
    rollToNextBusinessOpen c t = mondayOpen c t := by
  obtain ⟨hse, he⟩ := hv
  have hwlt : weekday t < 7 := Nat.mod_lt _ (by norm_num)
  have hparts := point_parts (dayIndex t + (7 - weekday t)) c.startTotal
    (by omega)
  have hwm : weekday (mondayOpen c t) = 0 := by
    unfold mondayOpen
    rw [hparts.1]
    unfold weekday
    omega
  have hmm : minsOfDay (mondayOpen c t) = c.startTotal := by
    unfold mondayOpen
    exact hparts.2
  rw [roll_unfold, if_pos hw]
  rw [show (2 : Nat) = 1 + 1 from rfl, rollAux_step]
  rw [if_neg (by rw [hwm]; omega), if_neg (by rw [hmm]; omega),
    if_neg (by rw [hmm]; omega)]

theorem roll_morning (c : BConfig) (t : Nat) (hw : weekday t < 5)
    (hmor : minsOfDay t < c.startTotal) :
    rollToNextBusinessOpen c t = todayOpen c t := by
  rw [roll_unfold, if_neg (by omega), if_pos hmor]

theorem roll_evening (c : BConfig) (t : Nat) (hv : c.valid)
    (hw : weekday t < 5) (heve : c.endTotal ≤ minsOfDay t) :
    rollToNextBusinessOpen c t =
      if weekday t = 4 then (dayIndex t + 3) * secPerDay + c.startTotal * 60
      else nextDayOpen c t := by
  obtain ⟨hse, he⟩ := hv
  have hn1 : weekday (nextDayOpen c t) = (dayIndex t + 1) % 7 := by
    unfold nextDayOpen
    exact (point_parts _ _ (by omega)).1
  have hn2 : minsOfDay (nextDayOpen c t) = c.startTotal := by
    unfold nextDayOpen
    exact (point_parts _ _ (by omega)).2
  rw [roll_unfold, if_neg (by omega), if_neg (by omega), if_pos heve]
  by_cases h4 : weekday t = 4
  · rw [if_pos h4]
    have hw5 : weekday (nextDayOpen c t) = 5 := by
      rw [hn1]
      unfold weekday at h4
      omega
    rw [show (2 : Nat) = 1 + 1 from rfl, rollAux_step,
      if_pos (by rw [hw5] : 5 ≤ weekday (nextDayOpen c t))]
    have hdn1 : dayIndex (nextDayOpen c t) = dayIndex t + 1 := by
      unfold nextDayOpen dayIndex secPerDay
      omega
    have hsum : dayIndex (nextDayOpen c t) + (7 - weekday (nextDayOpen c t))
        = dayIndex t + 3 := by
      rw [hdn1, hw5]
    have hmon : mondayOpen c (nextDayOpen c t)
        = (dayIndex t + 3) * secPerDay + c.startTotal * 60 := by
      unfold mondayOpen
      rw [hsum]
    rw [hmon]
    have hp3 := point_parts (dayIndex t + 3) c.startTotal (by omega)
    have hw3 : weekday ((dayIndex t + 3) * secPerDay + c.startTotal * 60)
        = 0 := by
      rw [hp3.1]
      unfold weekday at h4
      omega
    rw [show (1 : Nat) = 0 + 1 from rfl, rollAux_step]
    rw [if_neg (by rw [hw3]; omega), if_neg (by rw [hp3.2]; omega),
      if_neg (by rw [hp3.2]; omega)]
  · rw [if_neg h4]
    have hwn : weekday (nextDayOpen c t) < 5 := by
      rw [hn1]
      unfold weekday at hw h4
      omega
    rw [show (2 : Nat) = 1 + 1 from rfl, rollAux_step]
    rw [if_neg (by omega), if_neg (by rw [hn2]; omega),
      if_neg (by rw [hn2]; omega)]

/-- Counterexample to claim C9: at the exact end-of-window boundary
(Friday 17:00 under the default 08:00-17:00 window, t = 406800),
`_is_business_time` reports open (its interval is closed at `end`), yet
`_roll_to_next_business_open` does not return the instant unchanged — it
rolls to Monday 08:00 (t = 633600). -/
theorem c9_counterexample :
    isBusinessTime defaultBC 406800 = true
  ∧ rollToNextBusinessOpen defaultBC 406800 = 633600
  ∧ rollToNextBusinessOpen defaultBC 406800 ≠ 406800 := by
  refine ⟨by decide, by decide, by decide⟩

/-- Claim C9 as amended: under a valid configuration,
`roll_forward_to_open(t)` is the smallest instant `≥ t` whose weekday and
minute-of-day lie in the HALF-OPEN business window `[start, end)`
(`isRollOpen`), and it is the identity exactly there; in particular it
returns `t` unchanged at every instant where `_is_business_time` holds
except the exact closing boundary (minute-of-day = `end`), where
`_is_business_time` is still true (closed interval) but the roll moves
forward — so the fixpoint property claimed "including at the exact
boundaries" fails at the end boundary and only there. -/
theorem c9_theorem :
    ∀ (c : BConfig) (t : Nat), c.valid →
      isRollOpen c (rollToNextBusinessOpen c t)
      ∧ t ≤ rollToNextBusinessOpen c t
      ∧ (∀ u, t ≤ u → u < rollToNextBusinessOpen c t → ¬ isRollOpen c u)
      ∧ (isRollOpen c t → rollToNextBusinessOpen c t = t)
      ∧ (isBusinessTime c t = true → minsOfDay t < c.endTotal →
          rollToNextBusinessOpen c t = t)
      ∧ (c.endTotal ≤ minsOfDay t → rollToNextBusinessOpen c t ≠ t) := by
  intro c t hv
  obtain ⟨hse, he⟩ := hv
  by_cases hw : 5 ≤ weekday t
  · have hw2 : 5 ≤ t / 86400 % 7 := hw
    have hwlt : t / 86400 % 7 < 7 := Nat.mod_lt _ (by norm_num)
    have hrM : rollToNextBusinessOpen c t
        = (t / 86400 + (7 - t / 86400 % 7)) * 86400 + c.startTotal * 60 :=
      roll_weekend c t ⟨hse, he⟩ hw
    refine ⟨?_, ?_, ?_, ?_, ?_, ?_⟩
    · rw [hrM]
      refine ⟨?_, ?_, ?_⟩
      · show ((t / 86400 + (7 - t / 86400 % 7)) * 86400
            + c.startTotal * 60) / 86400 % 7 < 5
        omega
      · show c.startTotal ≤ ((t / 86400 + (7 - t / 86400 % 7)) * 86400
            + c.startTotal * 60) % 86400 / 60
        omega
      · show ((t / 86400 + (7 - t / 86400 % 7)) * 86400
            + c.startTotal * 60) % 86400 / 60 < c.endTotal
        omega
    · rw [hrM]
      omega
    · intro u htu hur hop
      rw [hrM] at hur
      have h1 : u / 86400 % 7 < 5 := hop.1
      have h2 : c.startTotal ≤ u % 86400 / 60 := hop.2.1
      have h3 : u % 86400 / 60 < c.endTotal := hop.2.2
      omega
    · intro hop
      exact absurd (hop.1 : t / 86400 % 7 < 5) (by omega)
    · intro hbt _
      simp only [isBusinessTime, Bool.and_eq_true, decide_eq_true_eq] at hbt
      exact absurd (hbt.1.1 : t / 86400 % 7 < 5) (by omega)
    · intro _
      rw [hrM]
      omega
  · have hw2 : ¬ 5 ≤ t / 86400 % 7 := hw
    by_cases hmor : minsOfDay t < c.startTotal
    · have hmor2 : t % 86400 / 60 < c.startTotal := hmor
      have hrM : rollToNextBusinessOpen c t
          = t / 86400 * 86400 + c.startTotal * 60 :=
        roll_morning c t (by omega) hmor
      refine ⟨?_, ?_, ?_, ?_, ?_, ?_⟩
      · rw [hrM]
        refine ⟨?_, ?_, ?_⟩
        · show (t / 86400 * 86400 + c.startTotal * 60) / 86400 % 7 < 5
          omega
        · show c.startTotal
            ≤ (t / 86400 * 86400 + c.startTotal * 60) % 86400 / 60
          omega
        · show (t / 86400 * 86400 + c.startTotal * 60) % 86400 / 60
            < c.endTotal
          omega
      · rw [hrM]
        omega
      · intro u htu hur hop
        rw [hrM] at hur
        have h2 : c.startTotal ≤ u % 86400 / 60 := hop.2.1
        omega
      · intro hop
        exact absurd (hop.2.1 : c.startTotal ≤ t % 86400 / 60) (by omega)
      · intro hbt _
        simp only [isBusinessTime, Bool.and_eq_true, decide_eq_true_eq] at hbt
        have hb2 : t / 86400 * 86400 + c.startTotal * 60 ≤ t := hbt.1.2
        exact absurd hb2 (by omega)
      · intro hend
        exact absurd (hend : c.endTotal ≤ t % 86400 / 60) (by omega)
    · have hmor2 : ¬ t % 86400 / 60 < c.startTotal := hmor
      by_cases heve : c.endTotal ≤ minsOfDay t
      · have heve2 : c.endTotal ≤ t % 86400 / 60 := heve
        have hr := roll_evening c t ⟨hse, he⟩ (by omega) heve
        by_cases h4 : weekday t = 4
        · have h42 : t / 86400 % 7 = 4 := h4
          rw [if_pos h4] at hr
          have hrM : rollToNextBusinessOpen c t
              = (t / 86400 + 3) * 86400 + c.startTotal * 60 := hr
          refine ⟨?_, ?_, ?_, ?_, ?_, ?_⟩
          · rw [hrM]
            refine ⟨?_, ?_, ?_⟩
            · show ((t / 86400 + 3) * 86400 + c.startTotal * 60)
                  / 86400 % 7 < 5
              omega
            · show c.startTotal
                ≤ ((t / 86400 + 3) * 86400 + c.startTotal * 60) % 86400 / 60
              omega
            · show ((t / 86400 + 3) * 86400 + c.startTotal * 60) % 86400 / 60
                < c.endTotal
              omega
          · rw [hrM]
            omega
          · intro u htu hur hop
            rw [hrM] at hur
            have h1 : u / 86400 % 7 < 5 := hop.1
            have h2 : c.startTotal ≤ u % 86400 / 60 := hop.2.1
            have h3 : u % 86400 / 60 < c.endTotal := hop.2.2
            have hday : u / 86400 = t / 86400 ∨ u / 86400 = t / 86400 + 1
                ∨ u / 86400 = t / 86400 + 2 ∨ u / 86400 = t / 86400 + 3 := by
              omega
            rcases hday with hd | hd | hd | hd
            · omega
            · omega
            · omega
            · omega
          · intro hop
            exact absurd (hop.2.2 : t % 86400 / 60 < c.endTotal) (by omega)
          · intro _ hlt
            exact absurd (hlt : t % 86400 / 60 < c.endTotal) (by omega)
          · intro _
            rw [hrM]
            omega
        · have h42 : ¬ t / 86400 % 7 = 4 := h4
          rw [if_neg h4] at hr
          have hrM : rollToNextBusinessOpen c t
              = (t / 86400 + 1) * 86400 + c.startTotal * 60 := hr
          refine ⟨?_, ?_, ?_, ?_, ?_, ?_⟩
          · rw [hrM]
            refine ⟨?_, ?_, ?_⟩
            · show ((t / 86400 + 1) * 86400 + c.startTotal * 60)
                  / 86400 % 7 < 5
              omega
            · show c.startTotal
                ≤ ((t / 86400 + 1) * 86400 + c.startTotal * 60) % 86400 / 60
              omega
            · show ((t / 86400 + 1) * 86400 + c.startTotal * 60) % 86400 / 60
                < c.endTotal
              omega
          · rw [hrM]
            omega
          · intro u htu hur hop
            rw [hrM] at hur
            have h1 : u / 86400 % 7 < 5 := hop.1
            have h2 : c.startTotal ≤ u % 86400 / 60 := hop.2.1
            have h3 : u % 86400 / 60 < c.endTotal := hop.2.2
            omega
          · intro hop
            exact absurd (hop.2.2 : t % 86400 / 60 < c.endTotal) (by omega)
          · intro _ hlt
            exact absurd (hlt : t % 86400 / 60 < c.endTotal) (by omega)
          · intro _
            rw [hrM]
            omega
      · have heve2 : ¬ c.endTotal ≤ t % 86400 / 60 := heve
        have hrM : rollToNextBusinessOpen c t = t :=
          roll_in_window c t (by omega) (by omega) (by omega)
        refine ⟨?_, ?_, ?_, ?_, ?_, ?_⟩
        · rw [hrM]
          exact ⟨by omega, by omega, by omega⟩
        · rw [hrM]
        · intro u htu hur _
          rw [hrM] at hur
          omega
        · intro _
          exact hrM
        · intro _ _
          exact hrM
        · intro hend
          exact absurd (hend : c.endTotal ≤ t % 86400 / 60) (by omega)

/-- Witness for C9: the amended theorem applied to the default
configuration at the Friday 17:00 boundary instant. -/
theorem c9_witness :
    isRollOpen defaultBC (rollToNextBusinessOpen defaultBC 406800)
    ∧ 406800 ≤ rollToNextBusinessOpen defaultBC 406800
    ∧ (∀ u, 406800 ≤ u → u < rollToNextBusinessOpen defaultBC 406800 →
        ¬ isRollOpen defaultBC u)
    ∧ (isRollOpen defaultBC 406800 → rollToNextBusinessOpen defaultBC 406800
        = 406800)
    ∧ (isBusinessTime defaultBC 406800 = true
        → minsOfDay 406800 < defaultBC.endTotal
        → rollToNextBusinessOpen defaultBC 406800 = 406800)
    ∧ (defaultBC.endTotal ≤ minsOfDay 406800
        → rollToNextBusinessOpen defaultBC 406800 ≠ 406800) :=
  c9_theorem defaultBC 406800 ⟨by decide, by decide⟩

end Sentinel
